import Mathlib

/-!
Verification of the ELF stub/symbol loading and import-resolution core of
vita-toolchain (`vita-elf.c`).

The C source is shallowly embedded below.  Machine integers are modelled as
`Nat` with explicit `% 2^32` where a 32-bit store truncates; byte buffers are
`List Nat` read through `% 256`; fallible code returns `Except`/`Option`;
libelf's chunked section payloads (`Elf_Data`) are lists of explicit chunks.
Resource acquisition and release (heap allocations, the file descriptor and
the libelf handle) are tracked as an event ledger so that the cleanup
discipline of `vita_elf_load`/`vita_elf_free` can be stated.
-/

/-! ### ELF constants (from `elf.h`, as used by the source) -/

def EM_ARM : Nat := 40
def ELFCLASS32 : Nat := 1
def ELFDATA2LSB : Nat := 1
def SHT_PROGBITS : Nat := 1
def SHT_SYMTAB : Nat := 2
def STB_GLOBAL : Nat := 1
def STT_OBJECT : Nat := 1
def STT_FUNC : Nat := 2

/-- One libelf data chunk (`Elf_Data`): its byte offset inside the section
(`d_off`), its declared byte size (`d_size`) and its buffer (`d_buf`). -/
structure ElfChunk where
  dOff : Nat
  dSize : Nat
  dBuf : List Nat
deriving DecidableEq

/-- The `le32toh` load applied to four consecutive bytes of a buffer at byte offset
`o`: a little-endian 32-bit load.  Out-of-range reads yield byte 0. -/
def readWord (buf : List Nat) (o : Nat) : Nat :=
  buf.getD o 0 % 256 + 256 * (buf.getD (o + 1) 0 % 256)
    + 65536 * (buf.getD (o + 2) 0 % 256) + 16777216 * (buf.getD (o + 3) 0 % 256)

/-- A 16-bit little-endian load, for `st_shndx`. -/
def readHalf (buf : List Nat) (o : Nat) : Nat :=
  buf.getD o 0 % 256 + 256 * (buf.getD (o + 1) 0 % 256)

/-- Modelled from the spec: `vita_elf_symbol_t` (`vita-elf.h` is not in the
source snapshot); the spec's symbol record is
`{name, value: u32, kind, binding, defining_section_index}`. -/
structure VitaSymbol where
  name : String
  value : Nat
  type : Nat
  binding : Nat
  shndx : Nat
deriving DecidableEq

/-- Modelled from the spec: `vita_elf_stub_t` (`vita-elf.h` is not in the
source snapshot); the spec's stub record is
`{address: u32, library_nid, module_nid, target_nid: u32, symbol,
library/module/target: optional references}`.  Resolved library / module /
target entities are opaque to this core and carried as `Nat` identities. -/
structure VitaStub where
  addr : Nat
  library_nid : Nat
  module_nid : Nat
  target_nid : Nat
  symbol : Option VitaSymbol := none
  library : Option Nat := none
  module : Option Nat := none
  target : Option Nat := none
deriving DecidableEq

/-- A `calloc`-zeroed stub record. -/
def zeroStub : VitaStub :=
  { addr := 0, library_nid := 0, module_nid := 0, target_nid := 0 }

/-- A `calloc`-zeroed symbol record (NULL name modelled as `""`). -/
def zeroSym : VitaSymbol :=
  { name := "", value := 0, type := 0, binding := 0, shndx := 0 }

/-! ### Stub section loader (`load_stubs`, vita-elf.c:31-63) -/

/-- The inner record loop of `load_stubs` on one chunk:
`for (chunk_offset = 0; chunk_offset < d_size; chunk_offset += 16)` decodes
one record per iteration; the iteration count is `⌈d_size / 16⌉`, passed here
as structural fuel.  Each record stores
`addr = sh_addr + d_off + chunk_offset` (truncated to the u32 `addr` field)
and the first three little-endian words of the 16-byte entry. -/
def decodeRecords (shAddr dOff : Nat) (buf : List Nat) : Nat → Nat → List VitaStub
  | _, 0 => []
  | chunkOff, n + 1 =>
    { addr := (shAddr + dOff + chunkOff) % 4294967296,
      library_nid := readWord buf chunkOff,
      module_nid := readWord buf (chunkOff + 4),
      target_nid := readWord buf (chunkOff + 8) }
      :: decodeRecords shAddr dOff buf (chunkOff + 16) n

/-- All records decoded from one chunk by `load_stubs`. -/
def decodeChunkStubs (shAddr : Nat) (c : ElfChunk) : List VitaStub :=
  decodeRecords shAddr c.dOff c.dBuf 0 ((c.dSize + 15) / 16)

/-- The chunk loop of `load_stubs`:
`while (total_bytes < shdr.sh_size && (data = elf_getdata(scn, data)) != NULL)`.
`curstub` advances sequentially across chunks, so the records written are the
concatenation of the per-chunk decodes. -/
def loadStubsAux (shAddr shSize : Nat) : List ElfChunk → Nat → List VitaStub
  | [], _ => []
  | c :: rest, totalBytes =>
    if totalBytes < shSize then
      decodeChunkStubs shAddr c ++ loadStubsAux shAddr shSize rest (totalBytes + c.dSize)
    else []

/-- The function `load_stubs`: `num_stubs = shdr.sh_size / 16`; the stub array is
`calloc`ed with that many zeroed records and filled sequentially by the chunk
loop (writes past the allocation are dropped by the embedding). -/
def loadStubs (shAddr shSize : Nat) (chunks : List ElfChunk) : Nat × List VitaStub :=
  let numStubs := shSize / 16
  let written := loadStubsAux shAddr shSize chunks 0
  (numStubs, (written ++ List.replicate numStubs zeroStub).take numStubs)

/-! ### Symbol table loader (`load_symbols`, vita-elf.c:65-108) -/

/-- The decode `gelf_getsym` performs on a 32-bit ELF: decode the `Elf32_Sym` at byte offset `o`
(`st_name` word, `st_value` word, `st_info` byte at +12, `st_shndx` half at
+14), then `GELF_ST_TYPE` = low nibble and `GELF_ST_BIND` = high nibble of
`st_info`; the name is resolved through the linked string table. -/
def decodeSym (strtab : Nat → String) (buf : List Nat) (o : Nat) : VitaSymbol :=
  let info := buf.getD (o + 12) 0 % 256
  { name := strtab (readWord buf o),
    value := readWord buf (o + 4),
    type := info % 16,
    binding := info / 16,
    shndx := readHalf buf (o + 14) }

/-- The inner loop of `load_symbols` on one chunk: starting at local index
`symndx`, run `n` iterations (the loop bound is `d_size / sh_entsize`), each
storing the decoded symbol at global index `symndx + data_beginsym`.
Out-of-range stores are dropped (`List.set` past the end is the identity). -/
def writeSyms (strtab : Nat → String) (entsize : Nat) (buf : List Nat) (beginsym : Nat) :
    Nat → Nat → List VitaSymbol → List VitaSymbol
  | _, 0, symtab => symtab
  | symndx, n + 1, symtab =>
    writeSyms strtab entsize buf beginsym (symndx + 1) n
      (symtab.set (symndx + beginsym) (decodeSym strtab buf (symndx * entsize)))

/-- One chunk of `load_symbols`: `data_beginsym = d_off / sh_entsize`; the
local index starts at `sh_info > data_beginsym ? sh_info - data_beginsym : 0`
and runs to `d_size / sh_entsize`. -/
def chunkWriteSyms (strtab : Nat → String) (entsize shInfo : Nat) (c : ElfChunk)
    (symtab : List VitaSymbol) : List VitaSymbol :=
  let beginsym := c.dOff / entsize
  let start := if shInfo > beginsym then shInfo - beginsym else 0
  writeSyms strtab entsize c.dBuf beginsym start (c.dSize / entsize - start) symtab

/-- The chunk loop of `load_symbols` (same `while` head as `load_stubs`). -/
def loadSymbolsAux (strtab : Nat → String) (entsize shInfo shSize : Nat) :
    List ElfChunk → Nat → List VitaSymbol → List VitaSymbol
  | [], _, symtab => symtab
  | c :: rest, totalBytes, symtab =>
    if totalBytes < shSize then
      loadSymbolsAux strtab entsize shInfo shSize rest (totalBytes + c.dSize)
        (chunkWriteSyms strtab entsize shInfo c symtab)
    else symtab

/-- The function `load_symbols` (minus the multiple-symbol-table check, which lives in the
section scan of the session assembler below): `num_symbols = sh_size /
sh_entsize`, the array is `calloc`ed zeroed and filled by the chunk loop. -/
def loadSymbols (strtab : Nat → String) (entsize shInfo shSize : Nat)
    (chunks : List ElfChunk) : Nat × List VitaSymbol :=
  let numSymbols := shSize / entsize
  (numSymbols, loadSymbolsAux strtab entsize shInfo shSize chunks 0
    (List.replicate numSymbols zeroSym))

/-- Ghost write trace for one chunk of `load_symbols`: the global symbol
indices the inner loop stores to, in store order (mirrors `chunkWriteSyms`). -/
def chunkTraceSyms (entsize shInfo : Nat) (c : ElfChunk) : List Nat :=
  let beginsym := c.dOff / entsize
  let start := if shInfo > beginsym then shInfo - beginsym else 0
  (List.range' start (c.dSize / entsize - start)).map (fun s => s + beginsym)

/-- Ghost write trace of the whole `load_symbols` chunk loop (mirrors
`loadSymbolsAux`). -/
def loadSymbolsTrace (entsize shInfo shSize : Nat) : List ElfChunk → Nat → List Nat
  | [], _ => []
  | c :: rest, totalBytes =>
    if totalBytes < shSize then
      chunkTraceSyms entsize shInfo c ++ loadSymbolsTrace entsize shInfo shSize rest (totalBytes + c.dSize)
    else []

/-! ### Chunked deliveries of a section's content -/

/-- Predicate `isDeliveryFrom bytes off chunks`: the chunks are in offset order,
contiguous from `off`, each buffer is the corresponding slice of the section's
bytes, and together they cover the section exactly. -/
def isDeliveryFrom (bytes : List Nat) : Nat → List ElfChunk → Bool
  | off, [] => off == bytes.length
  | off, c :: rest =>
    c.dOff == off && c.dBuf == (bytes.drop off).take c.dSize
      && isDeliveryFrom bytes (off + c.dSize) rest

/-- Every chunk's size is a multiple of the record size. -/
def alignedChunks (entsize : Nat) (chunks : List ElfChunk) : Bool :=
  chunks.all (fun c => c.dSize % entsize == 0)

/-- Canonical decode of a whole stub section from its bytes (what a
single-chunk delivery produces); record `i` sits at byte offset `16*i`. -/
def stubAt (shAddr : Nat) (bytes : List Nat) (o : Nat) : VitaStub :=
  { addr := (shAddr + o) % 4294967296,
    library_nid := readWord bytes o,
    module_nid := readWord bytes (o + 4),
    target_nid := readWord bytes (o + 8) }

/-- Canonical stub array of a section. -/
def sectionStubs (shAddr : Nat) (bytes : List Nat) : List VitaStub :=
  (List.range (bytes.length / 16)).map (fun i => stubAt shAddr bytes (16 * i))

/-- Canonical symbol array of a symbol-table section with 16-byte entries:
indices below `sh_info` stay `calloc`-zeroed, the rest are decoded in place. -/
def sectionSymtab (strtab : Nat → String) (shInfo : Nat) (bytes : List Nat) :
    List VitaSymbol :=
  (List.range (bytes.length / 16)).map
    (fun i => if shInfo ≤ i then decodeSym strtab bytes (16 * i) else zeroSym)

/-! ### Stub–symbol correlation (`lookup_stub_symbols`, vita-elf.c:110-149) -/

/-- The fatal correlation errors of `lookup_stub_symbols` (each constructor
carries what the corresponding `FAILX` message reports). -/
inductive CorrError
  | typeMismatch (name : String) (shndx expected actual : Nat)
  | duplicate (value shndx : Nat) (firstName secondName : String)
  | dangling (name : String) (shndx : Nat)
deriving DecidableEq

/-- The inner stub scan of `lookup_stub_symbols`: find the first stub whose
`addr` equals the symbol's `value`; a second symbol on one stub is a
duplicate error, no match is a dangling error, otherwise attach and stop. -/
def attachSym (cursym : VitaSymbol) (stubsNdx : Nat) :
    List VitaStub → Except CorrError (List VitaStub)
  | [] => .error (.dangling cursym.name cursym.shndx)
  | stub :: rest =>
    if stub.addr = cursym.value then
      match stub.symbol with
      | some prev => .error (.duplicate cursym.value stubsNdx prev.name cursym.name)
      | none => .ok ({ stub with symbol := some cursym } :: rest)
    else
      match attachSym cursym stubsNdx rest with
      | .error e => .error e
      | .ok rest' => .ok (stub :: rest')

/-- The function `lookup_stub_symbols`: walk the symbol table in index order; skip
non-global symbols, kinds other than function/object and symbols defined in
other sections; a wrong kind in the stub section is a fatal type mismatch;
otherwise attach the symbol to its stub. -/
def lookupStubSymbols (stubsNdx symType : Nat) :
    List VitaSymbol → List VitaStub → Except CorrError (List VitaStub)
  | [], stubs => .ok stubs
  | cursym :: rest, stubs =>
    if cursym.binding ≠ STB_GLOBAL then lookupStubSymbols stubsNdx symType rest stubs
    else if cursym.type ≠ STT_FUNC ∧ cursym.type ≠ STT_OBJECT then
      lookupStubSymbols stubsNdx symType rest stubs
    else if cursym.shndx ≠ stubsNdx then lookupStubSymbols stubsNdx symType rest stubs
    else if cursym.type ≠ symType then
      .error (.typeMismatch cursym.name stubsNdx symType cursym.type)
    else
      match attachSym cursym stubsNdx stubs with
      | .error e => .error e
      | .ok stubs' => lookupStubSymbols stubsNdx symType rest stubs'

/-! ### Import resolution (`lookup_stubs` / `vita_elf_lookup_imports`,
vita-elf.c:253-303) -/

/-- Which lookup stage a resolution diagnostic comes from. -/
inductive DiagStage
  | library | module | target
deriving DecidableEq

/-- One `warnx` diagnostic of `lookup_stubs`: the stage, the NID value the
message prints, and the symbol / stub-type names it cites. -/
structure ResolveDiag where
  stage : DiagStage
  nid : Nat
  symName : String
  typeName : String
deriving DecidableEq

/-- The expression `stub->symbol ? stub->symbol->name : "(unreferenced stub)"`. -/
def stubSymName (stub : VitaStub) : String :=
  match stub.symbol with
  | some s => s.name
  | none => "(unreferenced stub)"

/-- One iteration of the `lookup_stubs` loop: resolve one stub's three NIDs,
attaching each successful lookup to the stub immediately; a missing entity
emits one diagnostic and leaves the remaining stages untouched.  Note: in the
missing-target diagnostic the source passes `stub->module_nid` as the printed
NID (vita-elf.c:284). -/
def resolveStub (findLib : Nat → Option Nat) (findModule : Nat → Nat → Option Nat)
    (findStub : Nat → Nat → Option Nat) (stubTypeName : String) (stub : VitaStub) :
    VitaStub × Bool × List ResolveDiag :=
  let stub1 := { stub with library := findLib stub.library_nid }
  match stub1.library with
  | none => (stub1, false, [⟨.library, stub.library_nid, stubSymName stub, stubTypeName⟩])
  | some l =>
    let stub2 := { stub1 with module := findModule l stub.module_nid }
    match stub2.module with
    | none => (stub2, false, [⟨.module, stub.module_nid, stubSymName stub, stubTypeName⟩])
    | some m =>
      let stub3 := { stub2 with target := findStub m stub.target_nid }
      match stub3.target with
      | none => (stub3, false, [⟨.target, stub.module_nid, stubSymName stub, stubTypeName⟩])
      | some _ => (stub3, true, [])

/-- The function `lookup_stubs`: fold the per-stub resolution over the stub array,
accumulating the updated stubs, the `found_all` flag and the diagnostics. -/
def lookupStubs (findLib : Nat → Option Nat) (findModule findStub : Nat → Nat → Option Nat)
    (stubTypeName : String) (stubs : List VitaStub) :
    List VitaStub × Bool × List ResolveDiag :=
  stubs.foldl
    (fun acc stub =>
      let r := resolveStub findLib findModule findStub stubTypeName stub
      (acc.1 ++ [r.1], acc.2.1 && r.2.1, acc.2.2 ++ r.2.2))
    ([], true, [])

/-- A stub whose three resolution references are all populated. -/
def stubResolved (s : VitaStub) : Bool :=
  s.library.isSome && s.module.isSome && s.target.isSome

/-- Modelled from the spec: `vita_elf_t` (`vita-elf.h` is not in the source
snapshot); the session owns the fd, the libelf handle, the two stub arrays and
the symbol array.  Absent arrays are `none` (NULL); section index 0 is the
"not found" sentinel. -/
structure VitaElf where
  fd : Int := -1
  elfOpen : Bool := false
  fstubsNdx : Nat := 0
  vstubsNdx : Nat := 0
  numFstubs : Nat := 0
  numVstubs : Nat := 0
  fstubs : Option (List VitaStub) := none
  vstubs : Option (List VitaStub) := none
  numSymbols : Nat := 0
  symtab : Option (List VitaSymbol) := none

/-- The function `vita_elf_lookup_imports`: resolve the function-stub array with the
function accessor and the variable-stub array with the variable accessor;
the aggregate flag is true only if both passes found everything. -/
def vitaElfLookupImports (findLib : Nat → Option Nat)
    (findModule findFunction findVariable : Nat → Nat → Option Nat) (ve : VitaElf) :
    VitaElf × Bool × List ResolveDiag :=
  let rf := lookupStubs findLib findModule findFunction "function" (ve.fstubs.getD [])
  let rv := lookupStubs findLib findModule findVariable "variable" (ve.vstubs.getD [])
  ({ ve with fstubs := some rf.1, vstubs := some rv.1 }, rf.2.1 && rv.2.1, rf.2.2 ++ rv.2.2)

/-! ### Session assembly (`vita_elf_load` / `vita_elf_free`,
vita-elf.c:151-251) -/

/-- The resources `vita_elf_load` acquires and `vita_elf_free` releases. -/
inductive Res
  | veStruct | fdRes | elfHandle | fstubsArr | vstubsArr | symtabArr
deriving DecidableEq

/-- Ledger events: a resource acquisition or release. -/
inductive REvent
  | acq (r : Res)
  | rel (r : Res)
deriving DecidableEq

/-- The fatal load errors of `vita_elf_load` (one per `FAIL*` site). -/
inductive LoadError
  | elfVersionFailed | openFailed | elfBeginFailed | notElfFile | ehdrFailed
  | wrongMachine | wrongFormat | shstrndxFailed
  | multipleFstubs | multipleVstubs | multipleSymtab
  | noStubSections | noSymtab
  | corrFailed (e : CorrError)
deriving DecidableEq

/-- The function `vita_elf_free`: `free` the three arrays (`free(NULL)` is a no-op, hence
no event for an absent array), `elf_end` the handle if open, `close` the fd
if valid, then `free` the struct itself.  Returns the release events. -/
def vitaElfFree (ve : VitaElf) : List REvent :=
  (if ve.fstubs.isSome then [REvent.rel .fstubsArr] else [])
    ++ (if ve.vstubs.isSome then [REvent.rel .vstubsArr] else [])
    ++ (if ve.symtab.isSome then [REvent.rel .symtabArr] else [])
    ++ (if ve.elfOpen then [REvent.rel .elfHandle] else [])
    ++ (if ve.fd ≥ 0 then [REvent.rel .fdRes] else [])
    ++ [REvent.rel .veStruct]

/-- One ELF section as the scan loop of `vita_elf_load` sees it: its header
fields and its data chunks.  (`sname` is the name already resolved through
the section-header string table.) -/
structure ElfSection where
  shType : Nat
  sname : String
  shAddr : Nat
  shSize : Nat
  shEntsize : Nat
  shInfo : Nat
  chunks : List ElfChunk

/-- Condition `sh_type == SHT_PROGBITS && strcmp(name, ".vitalink.fstubs") == 0`. -/
def isFstubsSection (s : ElfSection) : Bool :=
  s.shType == SHT_PROGBITS && s.sname == ".vitalink.fstubs"

/-- Condition `sh_type == SHT_PROGBITS && strcmp(name, ".vitalink.vstubs") == 0`. -/
def isVstubsSection (s : ElfSection) : Bool :=
  s.shType == SHT_PROGBITS && s.sname == ".vitalink.vstubs"

/-- Condition `sh_type == SHT_SYMTAB`. -/
def isSymtabSection (s : ElfSection) : Bool :=
  s.shType == SHT_SYMTAB

/-- The section scan loop of `vita_elf_load` (vita-elf.c:190-215), with
`ndx = elf_ndxscn(scn)` counted from 1: duplicate `.vitalink` sections of one
kind and a second symbol table are fatal; matching sections are loaded and
their arrays acquired.  Returns the error (if any), the session state at exit
and the accumulated ledger. -/
def scanSections (strtab : Nat → String) :
    Nat → List ElfSection → VitaElf → List REvent →
    Option LoadError × VitaElf × List REvent
  | _, [], ve, evs => (none, ve, evs)
  | ndx, s :: rest, ve, evs =>
    if isFstubsSection s then
      if ve.fstubsNdx ≠ 0 then (some .multipleFstubs, ve, evs)
      else
        let r := loadStubs s.shAddr s.shSize s.chunks
        scanSections strtab (ndx + 1) rest
          { ve with fstubsNdx := ndx, numFstubs := r.1, fstubs := some r.2 }
          (evs ++ [REvent.acq .fstubsArr])
    else if isVstubsSection s then
      if ve.vstubsNdx ≠ 0 then (some .multipleVstubs, ve, evs)
      else
        let r := loadStubs s.shAddr s.shSize s.chunks
        scanSections strtab (ndx + 1) rest
          { ve with vstubsNdx := ndx, numVstubs := r.1, vstubs := some r.2 }
          (evs ++ [REvent.acq .vstubsArr])
    else if isSymtabSection s then
      if ve.symtab.isSome then (some .multipleSymtab, ve, evs)
      else
        let r := loadSymbols strtab s.shEntsize s.shInfo s.shSize s.chunks
        scanSections strtab (ndx + 1) rest
          { ve with numSymbols := r.1, symtab := some r.2 }
          (evs ++ [REvent.acq .symtabArr])
    else scanSections strtab (ndx + 1) rest ve evs

/-- The variable-stub correlation step of `vita_elf_load` (vita-elf.c:227-229)
followed by the successful return; a correlation error frees the session. -/
def corrPhaseV (ve : VitaElf) (evs : List REvent) :
    Except LoadError VitaElf × List REvent :=
  if ve.vstubsNdx ≠ 0 then
    match lookupStubSymbols ve.vstubsNdx STT_OBJECT (ve.symtab.getD []) (ve.vstubs.getD []) with
    | .error e => (.error (.corrFailed e), evs ++ vitaElfFree ve)
    | .ok vstubs' => (.ok { ve with vstubs := some vstubs' }, evs)
  else (.ok ve, evs)

/-- The function-stub correlation step of `vita_elf_load` (vita-elf.c:223-225),
then the variable-stub step. -/
def corrPhase (ve : VitaElf) (evs : List REvent) :
    Except LoadError VitaElf × List REvent :=
  if ve.fstubsNdx ≠ 0 then
    match lookupStubSymbols ve.fstubsNdx STT_FUNC (ve.symtab.getD []) (ve.fstubs.getD []) with
    | .error e => (.error (.corrFailed e), evs ++ vitaElfFree ve)
    | .ok fstubs' => corrPhaseV { ve with fstubs := some fstubs' } evs
  else corrPhaseV ve evs

/-- The tail of `vita_elf_load` after the section scan (vita-elf.c:217-232):
the post-scan invariant checks, then the correlation phase; each failure
frees the session state at failure. -/
def loadPost (res : Option LoadError × VitaElf × List REvent) :
    Except LoadError VitaElf × List REvent :=
  match res with
  | (some e, ve, evs) => (.error e, evs ++ vitaElfFree ve)
  | (none, ve, evs) =>
    if ve.fstubsNdx = 0 ∧ ve.vstubsNdx = 0 then
      (.error .noStubSections, evs ++ vitaElfFree ve)
    else if ve.symtab.isNone then
      (.error .noSymtab, evs ++ vitaElfFree ve)
    else corrPhase ve evs

/-- Section scan plus post-scan tail of `vita_elf_load`. -/
def loadTail (strtab : Nat → String) (secs : List ElfSection) (ve2 : VitaElf)
    (evs2 : List REvent) : Except LoadError VitaElf × List REvent :=
  loadPost (scanSections strtab 1 secs ve2 evs2)

/-- What `vita_elf_load` is fed: the outcomes of the libelf/OS preliminaries
and the binary's header fields and sections. -/
structure ElfInput where
  elfVersionOk : Bool
  openOk : Bool
  elfBeginOk : Bool
  kindIsElf : Bool
  ehdrOk : Bool
  eMachine : Nat
  eiClass : Nat
  eiData : Nat
  shstrndxOk : Bool
  sections : List ElfSection
  symStrtab : Nat → String

/-- The function `vita_elf_load`: preliminaries, format validation, section scan,
post-scan invariants and the two correlation passes.  Every `goto failure`
path with a non-NULL `ve` runs `vita_elf_free` on the state at failure; the
returned ledger records every acquisition and release. -/
def vitaElfLoad (input : ElfInput) : Except LoadError VitaElf × List REvent :=
  if input.elfVersionOk then
    let ve0 : VitaElf := {}
    let evs0 := [REvent.acq .veStruct]
    if input.openOk then
      let ve1 := { ve0 with fd := 3 }
      let evs1 := evs0 ++ [REvent.acq .fdRes]
      if input.elfBeginOk then
        let ve2 := { ve1 with elfOpen := true }
        let evs2 := evs1 ++ [REvent.acq .elfHandle]
        if input.kindIsElf then
          if input.ehdrOk then
            if input.eMachine = EM_ARM then
              if input.eiClass = ELFCLASS32 ∧ input.eiData = ELFDATA2LSB then
                if input.shstrndxOk then
                  loadTail input.symStrtab input.sections ve2 evs2
                else (.error .shstrndxFailed, evs2 ++ vitaElfFree ve2)
              else (.error .wrongFormat, evs2 ++ vitaElfFree ve2)
            else (.error .wrongMachine, evs2 ++ vitaElfFree ve2)
          else (.error .ehdrFailed, evs2 ++ vitaElfFree ve2)
        else (.error .notElfFile, evs2 ++ vitaElfFree ve2)
      else (.error .elfBeginFailed, evs1 ++ vitaElfFree ve1)
    else (.error .openFailed, evs0 ++ vitaElfFree ve0)
  else (.error .elfVersionFailed, [])

/-- How many times resource `r` was acquired in a ledger. -/
def acqCount (evs : List REvent) (r : Res) : Nat := evs.count (REvent.acq r)

/-- How many times resource `r` was released in a ledger. -/
def relCount (evs : List REvent) (r : Res) : Nat := evs.count (REvent.rel r)

/-- How many instances of resource `r` a session state currently holds. -/
def heldCount (ve : VitaElf) : Res → Nat
  | .veStruct => 1
  | .fdRes => if ve.fd ≥ 0 then 1 else 0
  | .elfHandle => if ve.elfOpen then 1 else 0
  | .fstubsArr => if ve.fstubs.isSome then 1 else 0
  | .vstubsArr => if ve.vstubs.isSome then 1 else 0
  | .symtabArr => if ve.symtab.isSome then 1 else 0

/-! ## Theorems -/

/-! ### Import resolver -/

theorem resolveStub_flag_eq (fl : Nat → Option Nat) (fm fs : Nat → Nat → Option Nat)
    (tn : String) (s : VitaStub) :
    (resolveStub fl fm fs tn s).2.1 = stubResolved (resolveStub fl fm fs tn s).1 := by
  unfold resolveStub
  cases h1 : fl s.library_nid with
  | none => simp [stubResolved, h1]
  | some l =>
    cases h2 : fm l s.module_nid with
    | none => simp [stubResolved, h1, h2]
    | some m =>
      cases h3 : fs m s.target_nid with
      | none => simp [stubResolved, h1, h2, h3]
      | some t => simp [stubResolved, h1, h2, h3]

theorem resolveStub_diag_length (fl : Nat → Option Nat) (fm fs : Nat → Nat → Option Nat)
    (tn : String) (s : VitaStub) :
    (resolveStub fl fm fs tn s).2.2.length
      = if (resolveStub fl fm fs tn s).2.1 then 0 else 1 := by
  unfold resolveStub
  cases h1 : fl s.library_nid with
  | none => simp [h1]
  | some l =>
    cases h2 : fm l s.module_nid with
    | none => simp [h1, h2]
    | some m =>
      cases h3 : fs m s.target_nid with
      | none => simp [h1, h2, h3]
      | some t => simp [h1, h2, h3]

theorem lookupStubs_spec (fl : Nat → Option Nat) (fm fs : Nat → Nat → Option Nat)
    (tn : String) (stubs : List VitaStub) :
    lookupStubs fl fm fs tn stubs =
      (stubs.map (fun s => (resolveStub fl fm fs tn s).1),
       stubs.all (fun s => (resolveStub fl fm fs tn s).2.1),
       (stubs.map (fun s => (resolveStub fl fm fs tn s).2.2)).flatten) := by
  have h : ∀ (l : List VitaStub) (acc : List VitaStub × Bool × List ResolveDiag),
      l.foldl (fun acc stub =>
        let r := resolveStub fl fm fs tn stub
        (acc.1 ++ [r.1], acc.2.1 && r.2.1, acc.2.2 ++ r.2.2)) acc
      = (acc.1 ++ l.map (fun s => (resolveStub fl fm fs tn s).1),
         acc.2.1 && l.all (fun s => (resolveStub fl fm fs tn s).2.1),
         acc.2.2 ++ (l.map (fun s => (resolveStub fl fm fs tn s).2.2)).flatten) := by
    intro l
    induction l with
    | nil => intro acc; simp
    | cons x xs ih =>
      intro acc
      simp [List.foldl_cons, ih, Bool.and_assoc, List.append_assoc]
  simpa [lookupStubs] using h stubs ([], true, [])

theorem all_eq_of_forall_eq {α : Type} (l : List α) (f g : α → Bool)
    (h : ∀ x ∈ l, f x = g x) : l.all f = l.all g := by
  induction l with
  | nil => rfl
  | cons x xs ih =>
    simp only [List.all_cons, h x (List.mem_cons_self x xs),
      ih (fun y hy => h y (List.mem_cons_of_mem x hy))]

theorem joined_diags_length (fl : Nat → Option Nat) (fm fs : Nat → Nat → Option Nat)
    (tn : String) (stubs : List VitaStub) :
    ((stubs.map (fun s => (resolveStub fl fm fs tn s).2.2)).flatten).length
      = (stubs.map (fun s => (resolveStub fl fm fs tn s).1)).countP
          (fun s => !stubResolved s) := by
  induction stubs with
  | nil => simp
  | cons x xs ih =>
    simp only [List.map_cons, List.flatten_cons, List.length_append, ih, List.countP_cons]
    rw [resolveStub_diag_length fl fm fs tn x, resolveStub_flag_eq fl fm fs tn x]
    cases h : stubResolved (resolveStub fl fm fs tn x).1 <;> simp [h] <;> omega

/-- C3: `resolve_imports` never aborts: both stub arrays are processed
stub-by-stub in full (the output arrays are the per-stub resolutions of every
input stub), the aggregate boolean is true iff every stub in both arrays
fully resolved, and the diagnostics number exactly one per unresolved stub. -/
theorem lookup_imports_never_aborts (fl : Nat → Option Nat)
    (fm ff fv : Nat → Nat → Option Nat) (ve : VitaElf) :
    ((vitaElfLookupImports fl fm ff fv ve).1.fstubs
        = some ((ve.fstubs.getD []).map fun s => (resolveStub fl fm ff "function" s).1))
    ∧ ((vitaElfLookupImports fl fm ff fv ve).1.vstubs
        = some ((ve.vstubs.getD []).map fun s => (resolveStub fl fm fv "variable" s).1))
    ∧ ((vitaElfLookupImports fl fm ff fv ve).2.1
        = (((vitaElfLookupImports fl fm ff fv ve).1.fstubs.getD [])
            ++ ((vitaElfLookupImports fl fm ff fv ve).1.vstubs.getD [])).all stubResolved)
    ∧ ((vitaElfLookupImports fl fm ff fv ve).2.2.length
        = (((vitaElfLookupImports fl fm ff fv ve).1.fstubs.getD [])
            ++ ((vitaElfLookupImports fl fm ff fv ve).1.vstubs.getD [])).countP
              (fun s => !stubResolved s)) := by
  refine ⟨?_, ?_, ?_, ?_⟩
  · simp [vitaElfLookupImports, lookupStubs_spec]
  · simp [vitaElfLookupImports, lookupStubs_spec]
  · simp only [vitaElfLookupImports, lookupStubs_spec, Option.getD_some, List.all_append,
      List.all_map]
    congr 1 <;>
      exact (all_eq_of_forall_eq _ _ _ (fun s _ => by
        simp [Function.comp, resolveStub_flag_eq])).symm
  · simp only [vitaElfLookupImports, lookupStubs_spec, Option.getD_some, List.length_append,
      List.countP_append]
    rw [joined_diags_length, joined_diags_length]

theorem resolveStub_success (fl : Nat → Option Nat) (fm fs : Nat → Nat → Option Nat)
    (tn : String) (s : VitaStub) (l m : Nat)
    (h1 : fl s.library_nid = some l) (h2 : fm l s.module_nid = some m)
    (h3 : (fs m s.target_nid).isSome = true) :
    (resolveStub fl fm fs tn s).2.1 = true := by
  obtain ⟨t, ht⟩ := Option.isSome_iff_exists.mp h3
  simp [resolveStub, h1, h2, ht]

/-- C8: if the database resolves every stub's library NID, module NID under
that library, and target NID under that module (with the kind-appropriate
accessor), `resolve_imports` returns true and every stub in both output
arrays has library, module and target populated. -/
theorem lookup_imports_roundtrip (fl : Nat → Option Nat)
    (fm ff fv : Nat → Nat → Option Nat) (ve : VitaElf)
    (hf : ∀ s ∈ ve.fstubs.getD [], ∃ l, fl s.library_nid = some l ∧
      ∃ m, fm l s.module_nid = some m ∧ (ff m s.target_nid).isSome = true)
    (hv : ∀ s ∈ ve.vstubs.getD [], ∃ l, fl s.library_nid = some l ∧
      ∃ m, fm l s.module_nid = some m ∧ (fv m s.target_nid).isSome = true) :
    (vitaElfLookupImports fl fm ff fv ve).2.1 = true
    ∧ ∀ s ∈ ((vitaElfLookupImports fl fm ff fv ve).1.fstubs.getD []
        ++ (vitaElfLookupImports fl fm ff fv ve).1.vstubs.getD []),
      stubResolved s = true := by
  have hfall : ((ve.fstubs.getD []).all fun s => (resolveStub fl fm ff "function" s).2.1) = true := by
    rw [List.all_eq_true]
    intro s hs
    obtain ⟨l, h1, m, h2, h3⟩ := hf s hs
    exact resolveStub_success fl fm ff "function" s l m h1 h2 h3
  have hvall : ((ve.vstubs.getD []).all fun s => (resolveStub fl fm fv "variable" s).2.1) = true := by
    rw [List.all_eq_true]
    intro s hs
    obtain ⟨l, h1, m, h2, h3⟩ := hv s hs
    exact resolveStub_success fl fm fv "variable" s l m h1 h2 h3
  constructor
  · simp [vitaElfLookupImports, lookupStubs_spec, hfall, hvall]
  · intro s hs
    simp only [vitaElfLookupImports, lookupStubs_spec, Option.getD_some, List.mem_append,
      List.mem_map] at hs
    rw [List.all_eq_true] at hfall hvall
    rcases hs with ⟨x, hx, rfl⟩ | ⟨x, hx, rfl⟩
    · rw [← resolveStub_flag_eq]
      exact hfall x hx
    · rw [← resolveStub_flag_eq]
      exact hvall x hx

theorem lookup_imports_roundtrip_witness :
    (vitaElfLookupImports (fun n => if n = 1 then some 10 else none)
      (fun l n => if l = 10 ∧ n = 2 then some 20 else none)
      (fun m n => if m = 20 ∧ n = 3 then some 30 else none)
      (fun m n => if m = 20 ∧ n = 4 then some 40 else none)
      { fstubs := some [{ addr := 0, library_nid := 1, module_nid := 2, target_nid := 3 }],
        vstubs := some [{ addr := 16, library_nid := 1, module_nid := 2, target_nid := 4 }] }).2.1
      = true := by
  exact (lookup_imports_roundtrip _ _ _ _ _
    (by
      intro s hs
      simp only [Option.getD_some, List.mem_singleton] at hs
      subst hs
      exact ⟨10, rfl, 20, rfl, rfl⟩)
    (by
      intro s hs
      simp only [Option.getD_some, List.mem_singleton] at hs
      subst hs
      exact ⟨10, rfl, 20, rfl, rfl⟩)).1

/-- C9 (code bug): when library and module resolve but the target does not,
the diagnostic the source emits carries `stub->module_nid`, not
`stub->target_nid` (vita-elf.c:284): at this input the stub's `module_nid`
is 2 and its `target_nid` is 3, yet the missing-target diagnostic reports
NID 2. -/
theorem lookup_stubs_target_diag_nid :
    ((resolveStub (fun n => if n = 1 then some 10 else none)
        (fun l n => if l = 10 ∧ n = 2 then some 20 else none)
        (fun _ _ => none) "function"
        { addr := 0, library_nid := 1, module_nid := 2, target_nid := 3 }).2.2
      = [{ stage := DiagStage.target, nid := 2, symName := "(unreferenced stub)",
           typeName := "function" }])
    ∧ ({ addr := 0, library_nid := 1, module_nid := 2, target_nid := 3 : VitaStub }).module_nid = 2
    ∧ ({ addr := 0, library_nid := 1, module_nid := 2, target_nid := 3 : VitaStub }).target_nid = 3 :=
  ⟨rfl, rfl, rfl⟩

/-- C10: resolution annotates stubs stage-prefix-wise: a stub failing only
the module stage ends with its library attached and module/target
unattached; a stub failing only the target stage keeps library and module
attached with target unattached. -/
theorem lookup_stubs_stagewise_attach (fl : Nat → Option Nat) (fm fs : Nat → Nat → Option Nat)
    (tn : String) (stub : VitaStub) :
    (∀ l, fl stub.library_nid = some l → fm l stub.module_nid = none → stub.target = none →
      (resolveStub fl fm fs tn stub).1.library = some l
      ∧ (resolveStub fl fm fs tn stub).1.module = none
      ∧ (resolveStub fl fm fs tn stub).1.target = none)
    ∧ (∀ l m, fl stub.library_nid = some l → fm l stub.module_nid = some m →
        fs m stub.target_nid = none →
      (resolveStub fl fm fs tn stub).1.library = some l
      ∧ (resolveStub fl fm fs tn stub).1.module = some m
      ∧ (resolveStub fl fm fs tn stub).1.target = none) := by
  constructor
  · intro l h1 h2 ht
    refine ⟨?_, ?_, ?_⟩ <;> simp [resolveStub, h1, h2, ht]
  · intro l m h1 h2 h3
    refine ⟨?_, ?_, ?_⟩ <;> simp [resolveStub, h1, h2, h3]

theorem lookup_stubs_stagewise_attach_witness :
    (resolveStub (fun n => if n = 1 then some 10 else none)
        (fun _ _ => none) (fun _ _ => none) "function"
        { addr := 0, library_nid := 1, module_nid := 2, target_nid := 3 }).1.library = some 10
    ∧ (resolveStub (fun n => if n = 1 then some 10 else none)
        (fun _ _ => none) (fun _ _ => none) "function"
        { addr := 0, library_nid := 1, module_nid := 2, target_nid := 3 }).1.module = none
    ∧ (resolveStub (fun n => if n = 1 then some 10 else none)
        (fun _ _ => none) (fun _ _ => none) "function"
        { addr := 0, library_nid := 1, module_nid := 2, target_nid := 3 }).1.target = none :=
  (lookup_stubs_stagewise_attach _ _ _ _ _).1 10 rfl rfl rfl

/-! ### Stub–symbol correlation -/

theorem attachSym_no_match (sym : VitaSymbol) (ndx : Nat) (stubs : List VitaStub)
    (h : ∀ s ∈ stubs, s.addr ≠ sym.value) :
    attachSym sym ndx stubs = .error (.dangling sym.name sym.shndx) := by
  induction stubs with
  | nil => rfl
  | cons x xs ih =>
    have hx := h x (List.mem_cons_self x xs)
    simp only [attachSym, if_neg hx, ih (fun s hs => h s (List.mem_cons_of_mem x hs))]

theorem attachSym_attach (sym : VitaSymbol) (ndx : Nat) :
    ∀ (stubs : List VitaStub) (j : Nat), j < stubs.length →
    (∀ k, k < j → (stubs.getD k zeroStub).addr ≠ sym.value) →
    (stubs.getD j zeroStub).addr = sym.value →
    (stubs.getD j zeroStub).symbol = none →
    attachSym sym ndx stubs
      = .ok (stubs.set j { stubs.getD j zeroStub with symbol := some sym }) := by
  intro stubs
  induction stubs with
  | nil => intro j hj; simp at hj
  | cons x xs ih =>
    intro j hj hfirst hmatch hfree
    cases j with
    | zero =>
      simp only [List.getD_cons_zero] at hmatch hfree
      simp only [attachSym, if_pos hmatch, hfree, List.set_cons_zero, List.getD_cons_zero]
    | succ j' =>
      have hx : x.addr ≠ sym.value := by
        have := hfirst 0 (Nat.succ_pos j')
        simpa using this
      have hrec := ih j' (by simpa using hj)
        (fun k hk => by simpa using hfirst (k + 1) (Nat.succ_lt_succ hk))
        (by simpa using hmatch) (by simpa using hfree)
      simp only [attachSym, if_neg hx, hrec, List.set_cons_succ, List.getD_cons_succ]

theorem attachSym_duplicate (sym : VitaSymbol) (ndx : Nat) :
    ∀ (stubs : List VitaStub) (j : Nat) (prev : VitaSymbol), j < stubs.length →
    (∀ k, k < j → (stubs.getD k zeroStub).addr ≠ sym.value) →
    (stubs.getD j zeroStub).addr = sym.value →
    (stubs.getD j zeroStub).symbol = some prev →
    attachSym sym ndx stubs = .error (.duplicate sym.value ndx prev.name sym.name) := by
  intro stubs
  induction stubs with
  | nil => intro j prev hj; simp at hj
  | cons x xs ih =>
    intro j prev hj hfirst hmatch hsym
    cases j with
    | zero =>
      simp only [List.getD_cons_zero] at hmatch hsym
      simp only [attachSym, if_pos hmatch, hsym]
    | succ j' =>
      have hx : x.addr ≠ sym.value := by
        have := hfirst 0 (Nat.succ_pos j')
        simpa using this
      have hrec := ih j' prev (by simpa using hj)
        (fun k hk => by simpa using hfirst (k + 1) (Nat.succ_lt_succ hk))
        (by simpa using hmatch) (by simpa using hsym)
      simp only [attachSym, if_neg hx, hrec]

theorem lookupStubSymbols_single (ndx ty : Nat) (sym : VitaSymbol) (stubs : List VitaStub)
    (hb : sym.binding = STB_GLOBAL) (hft : ty = STT_FUNC ∨ ty = STT_OBJECT)
    (htyp : sym.type = ty) (hsh : sym.shndx = ndx) :
    lookupStubSymbols ndx ty [sym] stubs = attachSym sym ndx stubs := by
  rcases hft with h | h <;> subst h <;>
    · simp only [lookupStubSymbols, hb, htyp, hsh, STB_GLOBAL, STT_FUNC, STT_OBJECT]
      norm_num
      cases h : attachSym sym ndx stubs <;> simp [h, lookupStubSymbols]

/-- C2: for a global function/object symbol of the expected kind defined in
the stub section, correlation attaches it to exactly the stub whose address
equals the symbol's value (all other stubs unchanged); with no matching stub
it fails with the dangling-reference error; if the matching stub already has
a symbol it fails with the duplicate-symbol error. -/
theorem lookup_stub_symbols_attach_spec (ndx ty : Nat) (sym : VitaSymbol)
    (stubs : List VitaStub)
    (hb : sym.binding = STB_GLOBAL) (hft : ty = STT_FUNC ∨ ty = STT_OBJECT)
    (htyp : sym.type = ty) (hsh : sym.shndx = ndx) :
    (∀ j, j < stubs.length → (stubs.getD j zeroStub).addr = sym.value →
      (stubs.getD j zeroStub).symbol = none →
      (∀ k, k < stubs.length → k ≠ j → (stubs.getD k zeroStub).addr ≠ sym.value) →
      lookupStubSymbols ndx ty [sym] stubs
        = .ok (stubs.set j { stubs.getD j zeroStub with symbol := some sym }))
    ∧ ((∀ s ∈ stubs, s.addr ≠ sym.value) →
      lookupStubSymbols ndx ty [sym] stubs = .error (.dangling sym.name sym.shndx))
    ∧ (∀ j prev, j < stubs.length →
      (∀ k, k < j → (stubs.getD k zeroStub).addr ≠ sym.value) →
      (stubs.getD j zeroStub).addr = sym.value →
      (stubs.getD j zeroStub).symbol = some prev →
      lookupStubSymbols ndx ty [sym] stubs
        = .error (.duplicate sym.value ndx prev.name sym.name)) := by
  refine ⟨?_, ?_, ?_⟩
  · intro j hj hmatch hfree huniq
    rw [lookupStubSymbols_single ndx ty sym stubs hb hft htyp hsh]
    exact attachSym_attach sym ndx stubs j hj
      (fun k hk => huniq k (lt_trans hk hj) (Nat.ne_of_lt hk)) hmatch hfree
  · intro h
    rw [lookupStubSymbols_single ndx ty sym stubs hb hft htyp hsh]
    exact attachSym_no_match sym ndx stubs h
  · intro j prev hj hfirst hmatch hsym
    rw [lookupStubSymbols_single ndx ty sym stubs hb hft htyp hsh]
    exact attachSym_duplicate sym ndx stubs j prev hj hfirst hmatch hsym

theorem lookup_stub_symbols_attach_spec_witness :
    lookupStubSymbols 5 2
      [{ name := "f", value := 272, type := 2, binding := 1, shndx := 5 }]
      [{ addr := 256, library_nid := 1, module_nid := 2, target_nid := 3 },
       { addr := 272, library_nid := 4, module_nid := 5, target_nid := 6 }]
      = .ok
      [{ addr := 256, library_nid := 1, module_nid := 2, target_nid := 3 },
       { addr := 272, library_nid := 4, module_nid := 5, target_nid := 6,
         symbol := some { name := "f", value := 272, type := 2, binding := 1, shndx := 5 } }] := by
  have h := (lookup_stub_symbols_attach_spec 5 2
      { name := "f", value := 272, type := 2, binding := 1, shndx := 5 }
      [{ addr := 256, library_nid := 1, module_nid := 2, target_nid := 3 },
       { addr := 272, library_nid := 4, module_nid := 5, target_nid := 6 }]
      rfl (Or.inl rfl) rfl rfl).1 1 (by decide) (by decide) (by decide)
      (by decide)
  exact h.trans rfl

/-! ### Stub section loader -/

theorem map_eq_of_forall_eq {α β : Type} (l : List α) (f g : α → β)
    (h : ∀ x ∈ l, f x = g x) : l.map f = l.map g := by
  induction l with
  | nil => rfl
  | cons x xs ih =>
    simp only [List.map_cons, h x (List.mem_cons_self x xs),
      ih (fun y hy => h y (List.mem_cons_of_mem x hy))]

theorem getD_slice (bytes : List Nat) (off ds k : Nat) (hk : k < ds) :
    ((bytes.drop off).take ds).getD k 0 = bytes.getD (off + k) 0 := by
  rw [List.getD_eq_getElem?_getD, List.getD_eq_getElem?_getD, List.getElem?_take,
    if_pos hk, List.getElem?_drop]

theorem readWord_slice (bytes : List Nat) (off ds k : Nat) (h : k + 4 ≤ ds) :
    readWord ((bytes.drop off).take ds) k = readWord bytes (off + k) := by
  unfold readWord
  rw [getD_slice bytes off ds k (by omega), getD_slice bytes off ds (k + 1) (by omega),
    getD_slice bytes off ds (k + 2) (by omega), getD_slice bytes off ds (k + 3) (by omega)]
  simp [Nat.add_assoc]

theorem decodeRecords_eq_map (shAddr dOff : Nat) (buf : List Nat) :
    ∀ (n chunkOff : Nat),
    decodeRecords shAddr dOff buf chunkOff n
      = (List.range' chunkOff n 16).map (fun o =>
          { addr := (shAddr + dOff + o) % 4294967296,
            library_nid := readWord buf o,
            module_nid := readWord buf (o + 4),
            target_nid := readWord buf (o + 8) }) := by
  intro n
  induction n with
  | zero => intro c; rfl
  | succ m ih =>
    intro c
    rw [List.range'_succ, List.map_cons, ← ih (c + 16)]
    rfl

theorem decodeChunkStubs_slice (shAddr : Nat) (bytes : List Nat) (off ds : Nat)
    (hal : ds % 16 = 0) :
    decodeChunkStubs shAddr ⟨off, ds, (bytes.drop off).take ds⟩
      = (List.range' off (ds / 16) 16).map (stubAt shAddr bytes) := by
  unfold decodeChunkStubs
  rw [decodeRecords_eq_map]
  have h1 : (ds + 15) / 16 = ds / 16 := by omega
  rw [h1]
  have h2 : List.range' off (ds / 16) 16 = (List.range' 0 (ds / 16) 16).map (off + ·) := by
    rw [List.map_add_range', Nat.add_zero]
  rw [h2, List.map_map]
  apply map_eq_of_forall_eq
  intro o ho
  obtain ⟨i, hi, rfl⟩ := List.mem_range'.1 ho
  have hbound : 16 * i + 12 ≤ ds := by omega
  simp only [Function.comp_apply, stubAt, Nat.zero_add]
  rw [readWord_slice bytes off ds _ (by omega), readWord_slice bytes off ds _ (by omega),
    readWord_slice bytes off ds _ (by omega)]
  simp [Nat.add_assoc]

theorem isDeliveryFrom_le (bytes : List Nat) :
    ∀ (chunks : List ElfChunk) (off : Nat),
    isDeliveryFrom bytes off chunks = true → off ≤ bytes.length := by
  intro chunks
  induction chunks with
  | nil =>
    intro off h
    simp only [isDeliveryFrom, beq_iff_eq] at h
    omega
  | cons c rest ih =>
    intro off h
    simp only [isDeliveryFrom, Bool.and_eq_true, beq_iff_eq] at h
    have := ih (off + c.dSize) h.2
    omega

theorem loadStubsAux_delivery (shAddr : Nat) (bytes : List Nat) :
    ∀ (chunks : List ElfChunk) (off : Nat),
    isDeliveryFrom bytes off chunks = true →
    alignedChunks 16 chunks = true →
    loadStubsAux shAddr bytes.length chunks off
      = (List.range' off ((bytes.length - off) / 16) 16).map (stubAt shAddr bytes) := by
  intro chunks
  induction chunks with
  | nil =>
    intro off hdel _
    simp only [isDeliveryFrom, beq_iff_eq] at hdel
    subst hdel
    simp [loadStubsAux]
  | cons c rest ih =>
    intro off hdel hal
    simp only [isDeliveryFrom, Bool.and_eq_true, beq_iff_eq] at hdel
    obtain ⟨⟨hcoff, hcbuf⟩, hrest⟩ := hdel
    simp only [alignedChunks, List.all_cons, Bool.and_eq_true, beq_iff_eq] at hal
    obtain ⟨hcal, hral⟩ := hal
    have hle := isDeliveryFrom_le bytes rest (off + c.dSize) hrest
    by_cases hlt : off < bytes.length
    · rw [loadStubsAux, if_pos hlt]
      have hc : c = ⟨off, c.dSize, (bytes.drop off).take c.dSize⟩ := by
        cases c
        simp_all
      have hds : decodeChunkStubs shAddr c
          = (List.range' off (c.dSize / 16) 16).map (stubAt shAddr bytes) := by
        rw [hc]
        exact decodeChunkStubs_slice shAddr bytes off c.dSize hcal
      rw [hds, ih (off + c.dSize) hrest hral, ← List.map_append]
      congr 1
      have h16 : 16 * (c.dSize / 16) = c.dSize := by omega
      have happ := List.range'_append off (c.dSize / 16)
        ((bytes.length - (off + c.dSize)) / 16) 16
      rw [h16] at happ
      rw [happ]
      congr 1
      omega
    · have hoff : off = bytes.length := by omega
      rw [loadStubsAux, if_neg hlt, hoff]
      simp

theorem loadStubs_delivery (shAddr : Nat) (bytes : List Nat) (chunks : List ElfChunk)
    (hdel : isDeliveryFrom bytes 0 chunks = true) (hal : alignedChunks 16 chunks = true) :
    loadStubs shAddr bytes.length chunks = (bytes.length / 16, sectionStubs shAddr bytes) := by
  unfold loadStubs
  rw [loadStubsAux_delivery shAddr bytes chunks 0 hdel hal]
  simp only [Nat.sub_zero]
  congr 1
  have hlen : ((List.range' 0 (bytes.length / 16) 16).map (stubAt shAddr bytes)).length
      = bytes.length / 16 := by simp
  rw [List.take_left' hlen]
  apply List.ext_getElem (by simp [sectionStubs])
  intro i h1 h2
  simp [sectionStubs, stubAt]

/-- C1: for a stub section of byte size `N*16` (delivered whole), the loader
produces exactly `N` records; record `i` has address
`section_base + 16*i` (so addresses are distinct and strictly ascending in
offset order) and its three NIDs are the first three little-endian words of
its 16-byte entry, the fourth word being ignored. -/
theorem load_stubs_count_addrs_nids (shAddr N : Nat) (buf : List Nat)
    (hlen : buf.length = 16 * N) (hval : shAddr + 16 * N ≤ 4294967296) :
    (loadStubs shAddr (16 * N) [⟨0, 16 * N, buf⟩]).1 = N
    ∧ (loadStubs shAddr (16 * N) [⟨0, 16 * N, buf⟩]).2.length = N
    ∧ (∀ i, i < N →
        (loadStubs shAddr (16 * N) [⟨0, 16 * N, buf⟩]).2.getD i zeroStub
          = { addr := shAddr + 16 * i,
              library_nid := readWord buf (16 * i),
              module_nid := readWord buf (16 * i + 4),
              target_nid := readWord buf (16 * i + 8) })
    ∧ (∀ i j, i < j → j < N →
        ((loadStubs shAddr (16 * N) [⟨0, 16 * N, buf⟩]).2.getD i zeroStub).addr
          < ((loadStubs shAddr (16 * N) [⟨0, 16 * N, buf⟩]).2.getD j zeroStub).addr) := by
  have hdel : isDeliveryFrom buf 0 [⟨0, 16 * N, buf⟩] = true := by
    simp [isDeliveryFrom, hlen, List.take_of_length_le, Nat.le_refl]
  have hal : alignedChunks 16 [⟨0, 16 * N, buf⟩] = true := by
    simp [alignedChunks]
  have hld := loadStubs_delivery shAddr buf [⟨0, 16 * N, buf⟩] hdel hal
  rw [hlen] at hld
  have hN : 16 * N / 16 = N := by omega
  have hslen : (sectionStubs shAddr buf).length = N := by
    simp [sectionStubs, hlen, hN]
  have hpt : ∀ i, i < N →
      (loadStubs shAddr (16 * N) [⟨0, 16 * N, buf⟩]).2.getD i zeroStub
        = { addr := shAddr + 16 * i,
            library_nid := readWord buf (16 * i),
            module_nid := readWord buf (16 * i + 4),
            target_nid := readWord buf (16 * i + 8) } := by
    intro i hi
    rw [hld]
    have hib : i < (sectionStubs shAddr buf).length := by omega
    rw [List.getD_eq_getElem _ _ hib]
    simp only [sectionStubs, hlen, hN, List.getElem_map, List.getElem_range, stubAt]
    have : (shAddr + 16 * i) % 4294967296 = shAddr + 16 * i :=
      Nat.mod_eq_of_lt (by omega)
    rw [this]
  refine ⟨?_, ?_, hpt, ?_⟩
  · rw [hld, hN]
  · rw [hld]
    exact hslen
  · intro i j hij hj
    rw [hpt i (lt_trans hij hj), hpt j hj]
    simp only []
    omega

theorem load_stubs_count_addrs_nids_witness :
    ((loadStubs 4096 (16 * 2) [⟨0, 16 * 2, List.replicate 32 0⟩]).2.getD 0 zeroStub).addr
      < ((loadStubs 4096 (16 * 2) [⟨0, 16 * 2, List.replicate 32 0⟩]).2.getD 1 zeroStub).addr :=
  (load_stubs_count_addrs_nids 4096 2 (List.replicate 32 0) (by norm_num)
    (by norm_num)).2.2.2 0 1 (by norm_num) (by norm_num)

/-! ### Symbol table loader -/

theorem getD_set {α : Type} (l : List α) (j : Nat) (v d : α) (i : Nat) :
    (l.set j v).getD i d = if j = i ∧ j < l.length then v else l.getD i d := by
  rw [List.getD_eq_getElem?_getD, List.getD_eq_getElem?_getD, List.getElem?_set]
  by_cases h1 : j = i
  · subst h1
    by_cases h2 : j < l.length <;> simp [h2]
    rw [List.getElem?_eq_none (by omega)]
    rfl
  · simp [h1]

theorem writeSyms_length (strtab : Nat → String) (entsize : Nat) (buf : List Nat)
    (beginsym : Nat) : ∀ (n symndx : Nat) (symtab : List VitaSymbol),
    (writeSyms strtab entsize buf beginsym symndx n symtab).length = symtab.length := by
  intro n
  induction n with
  | zero => intro symndx symtab; rfl
  | succ m ih =>
    intro symndx symtab
    simp only [writeSyms, ih, List.length_set]

theorem writeSyms_getD (strtab : Nat → String) (entsize : Nat) (buf : List Nat)
    (beginsym : Nat) : ∀ (n symndx : Nat) (symtab : List VitaSymbol) (i : Nat),
    (writeSyms strtab entsize buf beginsym symndx n symtab).getD i zeroSym
      = if symndx + beginsym ≤ i ∧ i < symndx + n + beginsym ∧ i < symtab.length
        then decodeSym strtab buf ((i - beginsym) * entsize)
        else symtab.getD i zeroSym := by
  intro n
  induction n with
  | zero =>
    intro symndx symtab i
    simp only [writeSyms]
    split_ifs with h
    · omega
    · rfl
  | succ m ih =>
    intro symndx symtab i
    simp only [writeSyms]
    rw [ih (symndx + 1) (symtab.set (symndx + beginsym) (decodeSym strtab buf (symndx * entsize))) i]
    rw [getD_set, List.length_set]
    have hmul : symndx + beginsym = i → (i - beginsym) * entsize = symndx * entsize := by
      intro h
      congr 1
      omega
    split_ifs with h1 h2 h3 h4 h5 <;> try rfl
    · omega
    · rw [hmul (by omega)]
    · omega
    · omega

theorem decodeSym_slice (strtab : Nat → String) (bytes : List Nat) (off ds k : Nat)
    (h : k + 16 ≤ ds) :
    decodeSym strtab ((bytes.drop off).take ds) k = decodeSym strtab bytes (off + k) := by
  unfold decodeSym readHalf
  rw [readWord_slice bytes off ds k (by omega), readWord_slice bytes off ds (k + 4) (by omega),
    getD_slice bytes off ds (k + 12) (by omega), getD_slice bytes off ds (k + 14) (by omega),
    getD_slice bytes off ds (k + 15) (by omega)]
  simp [Nat.add_assoc]

theorem chunkWriteSyms_getD (strtab : Nat → String) (shInfo : Nat) (bytes : List Nat)
    (off ds : Nat) (hal : ds % 16 = 0) (hoff : off % 16 = 0)
    (symtab : List VitaSymbol) (i : Nat) :
    (chunkWriteSyms strtab 16 shInfo ⟨off, ds, (bytes.drop off).take ds⟩ symtab).getD i zeroSym
      = if shInfo ≤ i ∧ off / 16 ≤ i ∧ i < (off + ds) / 16 ∧ i < symtab.length
        then decodeSym strtab bytes (i * 16)
        else symtab.getD i zeroSym := by
  have hval : off / 16 ≤ i → i < (off + ds) / 16 →
      decodeSym strtab ((bytes.drop off).take ds) ((i - off / 16) * 16)
        = decodeSym strtab bytes (i * 16) := by
    intro hle hlt
    rw [decodeSym_slice strtab bytes off ds _ (by omega)]
    congr 1
    omega
  simp only [chunkWriteSyms]
  rw [writeSyms_getD]
  split_ifs with h1 h2 h3 h4 h5 h6 <;>
    first
      | rfl
      | omega
      | (exact hval (by omega) (by omega))

theorem loadSymbolsAux_length (strtab : Nat → String) (entsize shInfo shSize : Nat) :
    ∀ (chunks : List ElfChunk) (off : Nat) (symtab : List VitaSymbol),
    (loadSymbolsAux strtab entsize shInfo shSize chunks off symtab).length = symtab.length := by
  intro chunks
  induction chunks with
  | nil => intro off symtab; rfl
  | cons c rest ih =>
    intro off symtab
    simp only [loadSymbolsAux]
    split_ifs with h
    · rw [ih]
      simp only [chunkWriteSyms]
      rw [writeSyms_length]
    · rfl

theorem loadSymbolsAux_delivery (strtab : Nat → String) (shInfo : Nat) (bytes : List Nat) :
    ∀ (chunks : List ElfChunk) (off : Nat) (symtab : List VitaSymbol),
    isDeliveryFrom bytes off chunks = true →
    alignedChunks 16 chunks = true →
    off % 16 = 0 →
    ∀ i, (loadSymbolsAux strtab 16 shInfo bytes.length chunks off symtab).getD i zeroSym
      = if shInfo ≤ i ∧ off / 16 ≤ i ∧ i < bytes.length / 16 ∧ i < symtab.length
        then decodeSym strtab bytes (i * 16)
        else symtab.getD i zeroSym := by
  intro chunks
  induction chunks with
  | nil =>
    intro off symtab hdel _ _ i
    simp only [isDeliveryFrom, beq_iff_eq] at hdel
    subst hdel
    simp only [loadSymbolsAux]
    split_ifs with h
    · omega
    · rfl
  | cons c rest ih =>
    intro off symtab hdel hal hoff i
    simp only [isDeliveryFrom, Bool.and_eq_true, beq_iff_eq] at hdel
    obtain ⟨⟨hcoff, hcbuf⟩, hrest⟩ := hdel
    simp only [alignedChunks, List.all_cons, Bool.and_eq_true, beq_iff_eq] at hal
    obtain ⟨hcal, hral⟩ := hal
    have hle := isDeliveryFrom_le bytes rest (off + c.dSize) hrest
    by_cases hlt : off < bytes.length
    · simp only [loadSymbolsAux, if_pos hlt]
      rw [ih (off + c.dSize) _ hrest hral (by omega) i]
      have hc : c = ⟨off, c.dSize, (bytes.drop off).take c.dSize⟩ := by
        cases c
        simp_all
      have hcw := chunkWriteSyms_getD strtab shInfo bytes off c.dSize hcal hoff symtab
      rw [← hc] at hcw
      have hlen : (chunkWriteSyms strtab 16 shInfo c symtab).length = symtab.length := by
        simp only [chunkWriteSyms]
        rw [writeSyms_length]
      rw [hlen, hcw i]
      split_ifs <;> first | rfl | omega
    · have hoffeq : off = bytes.length := by omega
      simp only [loadSymbolsAux, if_neg hlt]
      split_ifs with h
      · omega
      · rfl

theorem loadSymbols_delivery (strtab : Nat → String) (shInfo : Nat) (bytes : List Nat)
    (chunks : List ElfChunk)
    (hdel : isDeliveryFrom bytes 0 chunks = true) (hal : alignedChunks 16 chunks = true) :
    loadSymbols strtab 16 shInfo bytes.length chunks
      = (bytes.length / 16, sectionSymtab strtab shInfo bytes) := by
  simp only [loadSymbols]
  congr 1
  have hlen : (loadSymbolsAux strtab 16 shInfo bytes.length chunks 0
      (List.replicate (bytes.length / 16) zeroSym)).length = bytes.length / 16 := by
    rw [loadSymbolsAux_length]
    simp
  apply List.ext_getElem (by rw [hlen]; simp [sectionSymtab])
  intro i h1 h2
  have hgd := loadSymbolsAux_delivery strtab shInfo bytes chunks 0
    (List.replicate (bytes.length / 16) zeroSym) hdel hal (by omega) i
  rw [← List.getD_eq_getElem _ zeroSym h1, hgd]
  have hi : i < bytes.length / 16 := by
    simpa [sectionSymtab] using h2
  have hrep : (List.replicate (bytes.length / 16) zeroSym).getD i zeroSym = zeroSym := by
    rw [List.getD_eq_getElem?_getD, List.getElem?_replicate]
    split_ifs <;> rfl
  rw [hrep]
  simp only [sectionSymtab, List.getElem_map, List.getElem_range, List.length_replicate,
    Nat.zero_div]
  split_ifs <;> first | (congr 1; omega) | rfl | omega

theorem chunkTraceSyms_eq (shInfo off ds : Nat) (buf : List Nat) :
    chunkTraceSyms 16 shInfo ⟨off, ds, buf⟩
      = List.range' (max shInfo (off / 16))
          (off / 16 + ds / 16 - max shInfo (off / 16)) := by
  simp only [chunkTraceSyms]
  rw [map_eq_of_forall_eq _ _ (fun s => off / 16 + s) (fun s _ => Nat.add_comm s (off / 16)),
    List.map_add_range']
  by_cases h : shInfo > off / 16
  · rw [if_pos h]
    congr 1 <;> omega
  · rw [if_neg h]
    congr 1 <;> omega

theorem loadSymbolsTrace_delivery (shInfo : Nat) (bytes : List Nat) :
    ∀ (chunks : List ElfChunk) (off : Nat),
    isDeliveryFrom bytes off chunks = true →
    alignedChunks 16 chunks = true →
    off % 16 = 0 →
    loadSymbolsTrace 16 shInfo bytes.length chunks off
      = List.range' (max shInfo (off / 16))
          (bytes.length / 16 - max shInfo (off / 16)) := by
  intro chunks
  induction chunks with
  | nil =>
    intro off hdel _ _
    simp only [isDeliveryFrom, beq_iff_eq] at hdel
    subst hdel
    have : bytes.length / 16 - max shInfo (bytes.length / 16) = 0 := by omega
    simp [loadSymbolsTrace, this]
  | cons c rest ih =>
    intro off hdel hal hoff
    simp only [isDeliveryFrom, Bool.and_eq_true, beq_iff_eq] at hdel
    obtain ⟨⟨hcoff, hcbuf⟩, hrest⟩ := hdel
    simp only [alignedChunks, List.all_cons, Bool.and_eq_true, beq_iff_eq] at hal
    obtain ⟨hcal, hral⟩ := hal
    have hle := isDeliveryFrom_le bytes rest (off + c.dSize) hrest
    by_cases hlt : off < bytes.length
    · simp only [loadSymbolsTrace, if_pos hlt]
      have hc : c = ⟨off, c.dSize, (bytes.drop off).take c.dSize⟩ := by
        cases c
        simp_all
      rw [hc, chunkTraceSyms_eq, ih (off + c.dSize) hrest hral (by omega)]
      have hM : max shInfo ((off + c.dSize) / 16)
          = max shInfo (off / 16)
            + (off / 16 + c.dSize / 16 - max shInfo (off / 16)) := by
        omega
      rw [hM]
      rw [List.range'_append_1]
      congr 1
      omega
    · have hoffeq : off = bytes.length := by omega
      simp only [loadSymbolsTrace, if_neg hlt]
      have : bytes.length / 16 - max shInfo (off / 16) = 0 := by omega
      simp [this]

/-- C5: over any entry-aligned chunked delivery of the symbol table, the
write trace of `load_symbols` is exactly the indices from `sh_info` (the
first non-local symbol) to the end, in order: each chunk starts at index
`chunk_byte_offset / entry_size`, no index is written twice (the trace has
no duplicates) and none is skipped; every traced index ends up holding the
decode of its own 16-byte entry. -/
theorem load_symbols_indices_exactly_once (strtab : Nat → String) (shInfo : Nat)
    (bytes : List Nat) (chunks : List ElfChunk)
    (hdel : isDeliveryFrom bytes 0 chunks = true)
    (hal : alignedChunks 16 chunks = true)
    (hinfo : shInfo ≤ bytes.length / 16) :
    loadSymbolsTrace 16 shInfo bytes.length chunks 0
      = List.range' shInfo (bytes.length / 16 - shInfo)
    ∧ (loadSymbolsTrace 16 shInfo bytes.length chunks 0).Nodup
    ∧ ∀ i ∈ loadSymbolsTrace 16 shInfo bytes.length chunks 0,
        (loadSymbols strtab 16 shInfo bytes.length chunks).2.getD i zeroSym
          = decodeSym strtab bytes (i * 16) := by
  have htr := loadSymbolsTrace_delivery shInfo bytes chunks 0 hdel hal (by omega)
  have hmax : max shInfo (0 / 16) = shInfo := by omega
  rw [hmax] at htr
  refine ⟨htr, ?_, ?_⟩
  · rw [htr]
    exact List.nodup_range' _ _
  · intro i hi
    rw [htr] at hi
    obtain ⟨j, hj, rfl⟩ := List.mem_range'.1 hi
    rw [loadSymbols_delivery strtab shInfo bytes chunks hdel hal]
    have hib : shInfo + 1 * j < (sectionSymtab strtab shInfo bytes).length := by
      simp only [sectionSymtab, List.length_map, List.length_range]
      omega
    rw [List.getD_eq_getElem _ zeroSym hib]
    simp only [sectionSymtab, List.getElem_map, List.getElem_range]
    rw [if_pos (by omega)]
    congr 1
    omega

theorem load_symbols_indices_exactly_once_witness :
    loadSymbolsTrace 16 1 (List.replicate 32 (0 : Nat)).length
        [⟨0, 16, List.replicate 16 0⟩, ⟨16, 16, List.replicate 16 0⟩] 0
      = List.range' 1 ((List.replicate 32 (0 : Nat)).length / 16 - 1) :=
  (load_symbols_indices_exactly_once (fun _ => "") 1 (List.replicate 32 0)
    [⟨0, 16, List.replicate 16 0⟩, ⟨16, 16, List.replicate 16 0⟩]
    (by decide) (by decide) (by decide)).1

/-- C6 (amended): chunking is unobservable provided every chunk's size is a
multiple of the record size: any two entry-aligned chunked deliveries of the
same section bytes decode to identical stub arrays and identical symbol
arrays.  (The unamended claim, over chunks of arbitrary sizes, is refuted by
`chunking_observable_counterexample`.) -/
theorem chunking_unobservable_aligned (strtab : Nat → String) (shInfo shAddr : Nat)
    (bytes : List Nat) (d1 d2 : List ElfChunk)
    (h1 : isDeliveryFrom bytes 0 d1 = true) (ha1 : alignedChunks 16 d1 = true)
    (h2 : isDeliveryFrom bytes 0 d2 = true) (ha2 : alignedChunks 16 d2 = true) :
    loadStubs shAddr bytes.length d1 = loadStubs shAddr bytes.length d2
    ∧ loadSymbols strtab 16 shInfo bytes.length d1
        = loadSymbols strtab 16 shInfo bytes.length d2 := by
  constructor
  · rw [loadStubs_delivery shAddr bytes d1 h1 ha1, loadStubs_delivery shAddr bytes d2 h2 ha2]
  · rw [loadSymbols_delivery strtab shInfo bytes d1 h1 ha1,
      loadSymbols_delivery strtab shInfo bytes d2 h2 ha2]

theorem chunking_unobservable_aligned_witness :
    loadStubs 4096 (List.replicate 32 (0 : Nat)).length [⟨0, 32, List.replicate 32 0⟩]
      = loadStubs 4096 (List.replicate 32 (0 : Nat)).length
          [⟨0, 16, List.replicate 16 0⟩, ⟨16, 16, List.replicate 16 0⟩] :=
  (chunking_unobservable_aligned (fun _ => "") 0 4096 (List.replicate 32 0)
    [⟨0, 32, List.replicate 32 0⟩]
    [⟨0, 16, List.replicate 16 0⟩, ⟨16, 16, List.replicate 16 0⟩]
    (by decide) (by decide) (by decide) (by decide)).1

/-- C6 (counterexample): the claim as stated — identical decoded arrays for
chunk splits of arbitrary sizes — is false: splitting a 32-byte stub section
at byte 8 instead of delivering it whole changes the decoded stub array
(the second record's address becomes `base+8` instead of `base+16`), even
though both splits are in offset order and cover the section. -/
theorem chunking_observable_counterexample :
    isDeliveryFrom (List.replicate 32 (0 : Nat)) 0 [⟨0, 32, List.replicate 32 0⟩] = true
    ∧ isDeliveryFrom (List.replicate 32 (0 : Nat)) 0
        [⟨0, 8, List.replicate 8 0⟩, ⟨8, 24, List.replicate 24 0⟩] = true
    ∧ (loadStubs 4096 32 [⟨0, 32, List.replicate 32 0⟩]).2
        ≠ (loadStubs 4096 32 [⟨0, 8, List.replicate 8 0⟩, ⟨8, 24, List.replicate 24 0⟩]).2 :=
  ⟨by decide, by decide, by decide⟩

/-! ### Session assembly: resource ledger bookkeeping -/

theorem acqCount_append (evs1 evs2 : List REvent) (r : Res) :
    acqCount (evs1 ++ evs2) r = acqCount evs1 r + acqCount evs2 r := by
  simp [acqCount, List.count_append]

theorem relCount_append (evs1 evs2 : List REvent) (r : Res) :
    relCount (evs1 ++ evs2) r = relCount evs1 r + relCount evs2 r := by
  simp [relCount, List.count_append]

theorem acqCount_single_acq (r' r : Res) :
    acqCount [REvent.acq r'] r = if r' = r then 1 else 0 := by
  cases r' <;> cases r <;> decide

theorem relCount_single_acq (r' r : Res) :
    relCount [REvent.acq r'] r = 0 := by
  cases r' <;> cases r <;> decide

theorem acqCount_vitaElfFree (ve : VitaElf) (r : Res) :
    acqCount (vitaElfFree ve) r = 0 := by
  simp only [vitaElfFree, acqCount, List.count_append]
  split_ifs <;> cases r <;> decide

theorem relCount_vitaElfFree (ve : VitaElf) (r : Res) :
    relCount (vitaElfFree ve) r = heldCount ve r := by
  simp only [vitaElfFree, relCount, List.count_append]
  split_ifs <;> cases r <;> simp_all [heldCount] <;>
    first | decide | omega | rw [if_neg (by omega)] | rw [if_pos (by omega)]

theorem failure_counts (ve : VitaElf) (evs : List REvent) (r : Res)
    (hInv : acqCount evs r = heldCount ve r) (hRel : relCount evs r = 0) :
    acqCount (evs ++ vitaElfFree ve) r = relCount (evs ++ vitaElfFree ve) r := by
  rw [acqCount_append, relCount_append, hInv, hRel, relCount_vitaElfFree,
    acqCount_vitaElfFree]
  omega

theorem scanSections_cons_fstubs_dup (strtab : Nat → String) (ndx : Nat) (s : ElfSection)
    (rest : List ElfSection) (ve : VitaElf) (evs : List REvent)
    (h1 : isFstubsSection s = true) (h2 : ve.fstubsNdx ≠ 0) :
    scanSections strtab ndx (s :: rest) ve evs = (some .multipleFstubs, ve, evs) := by
  simp only [scanSections, h1, eq_self_iff_true, if_true]
  rw [if_pos h2]

theorem scanSections_cons_fstubs (strtab : Nat → String) (ndx : Nat) (s : ElfSection)
    (rest : List ElfSection) (ve : VitaElf) (evs : List REvent)
    (h1 : isFstubsSection s = true) (h2 : ¬ve.fstubsNdx ≠ 0) :
    scanSections strtab ndx (s :: rest) ve evs
      = scanSections strtab (ndx + 1) rest
          { ve with
            fstubsNdx := ndx,
            numFstubs := (loadStubs s.shAddr s.shSize s.chunks).1,
            fstubs := some (loadStubs s.shAddr s.shSize s.chunks).2 }
          (evs ++ [REvent.acq .fstubsArr]) := by
  simp only [scanSections, h1, eq_self_iff_true, if_true]
  rw [if_neg h2]

theorem scanSections_cons_vstubs_dup (strtab : Nat → String) (ndx : Nat) (s : ElfSection)
    (rest : List ElfSection) (ve : VitaElf) (evs : List REvent)
    (h1 : isFstubsSection s = false) (h3 : isVstubsSection s = true) (h4 : ve.vstubsNdx ≠ 0) :
    scanSections strtab ndx (s :: rest) ve evs = (some .multipleVstubs, ve, evs) := by
  simp only [scanSections, h1, h3, Bool.false_eq_true, if_false, eq_self_iff_true, if_true]
  rw [if_pos h4]

theorem scanSections_cons_vstubs (strtab : Nat → String) (ndx : Nat) (s : ElfSection)
    (rest : List ElfSection) (ve : VitaElf) (evs : List REvent)
    (h1 : isFstubsSection s = false) (h3 : isVstubsSection s = true) (h4 : ¬ve.vstubsNdx ≠ 0) :
    scanSections strtab ndx (s :: rest) ve evs
      = scanSections strtab (ndx + 1) rest
          { ve with
            vstubsNdx := ndx,
            numVstubs := (loadStubs s.shAddr s.shSize s.chunks).1,
            vstubs := some (loadStubs s.shAddr s.shSize s.chunks).2 }
          (evs ++ [REvent.acq .vstubsArr]) := by
  simp only [scanSections, h1, h3, Bool.false_eq_true, if_false, eq_self_iff_true, if_true]
  rw [if_neg h4]

theorem scanSections_cons_symtab_dup (strtab : Nat → String) (ndx : Nat) (s : ElfSection)
    (rest : List ElfSection) (ve : VitaElf) (evs : List REvent)
    (h1 : isFstubsSection s = false) (h3 : isVstubsSection s = false)
    (h5 : isSymtabSection s = true) (h6 : ve.symtab.isSome = true) :
    scanSections strtab ndx (s :: rest) ve evs = (some .multipleSymtab, ve, evs) := by
  simp only [scanSections, h1, h3, h5, Bool.false_eq_true, if_false, eq_self_iff_true,
    if_true]
  rw [if_pos h6]

theorem scanSections_cons_symtab (strtab : Nat → String) (ndx : Nat) (s : ElfSection)
    (rest : List ElfSection) (ve : VitaElf) (evs : List REvent)
    (h1 : isFstubsSection s = false) (h3 : isVstubsSection s = false)
    (h5 : isSymtabSection s = true) (h6 : ¬ve.symtab.isSome = true) :
    scanSections strtab ndx (s :: rest) ve evs
      = scanSections strtab (ndx + 1) rest
          { ve with
            numSymbols := (loadSymbols strtab s.shEntsize s.shInfo s.shSize s.chunks).1,
            symtab := some (loadSymbols strtab s.shEntsize s.shInfo s.shSize s.chunks).2 }
          (evs ++ [REvent.acq .symtabArr]) := by
  simp only [scanSections, h1, h3, h5, Bool.false_eq_true, if_false, eq_self_iff_true,
    if_true]
  rw [if_neg h6]

theorem scanSections_cons_skip (strtab : Nat → String) (ndx : Nat) (s : ElfSection)
    (rest : List ElfSection) (ve : VitaElf) (evs : List REvent)
    (h1 : isFstubsSection s = false) (h3 : isVstubsSection s = false)
    (h5 : isSymtabSection s = false) :
    scanSections strtab ndx (s :: rest) ve evs
      = scanSections strtab (ndx + 1) rest ve evs := by
  simp only [scanSections, h1, h3, h5, Bool.false_eq_true, if_false]

theorem scanSections_inv (strtab : Nat → String) :
    ∀ (secs : List ElfSection) (ndx : Nat) (ve : VitaElf) (evs : List REvent),
    1 ≤ ndx →
    (∀ r, acqCount evs r = heldCount ve r) →
    (∀ r, relCount evs r = 0) →
    (ve.fstubs.isSome = true ↔ ve.fstubsNdx ≠ 0) →
    (ve.vstubs.isSome = true ↔ ve.vstubsNdx ≠ 0) →
    (∀ r, acqCount (scanSections strtab ndx secs ve evs).2.2 r
        = heldCount (scanSections strtab ndx secs ve evs).2.1 r)
    ∧ (∀ r, relCount (scanSections strtab ndx secs ve evs).2.2 r = 0)
    ∧ (scanSections strtab ndx secs ve evs).2.1.fd = ve.fd
    ∧ (scanSections strtab ndx secs ve evs).2.1.elfOpen = ve.elfOpen
    ∧ ((scanSections strtab ndx secs ve evs).2.1.fstubs.isSome = true
        ↔ (scanSections strtab ndx secs ve evs).2.1.fstubsNdx ≠ 0)
    ∧ ((scanSections strtab ndx secs ve evs).2.1.vstubs.isSome = true
        ↔ (scanSections strtab ndx secs ve evs).2.1.vstubsNdx ≠ 0) := by
  intro secs
  induction secs with
  | nil =>
    intro ndx ve evs hnd hacq hrel hf hv
    exact ⟨hacq, hrel, rfl, rfl, hf, hv⟩
  | cons s rest ih =>
    intro ndx ve evs hnd hacq hrel hf hv
    by_cases c1 : isFstubsSection s = true
    · by_cases c2 : ve.fstubsNdx ≠ 0
      · rw [scanSections_cons_fstubs_dup strtab ndx s rest ve evs c1 c2]
        exact ⟨hacq, hrel, rfl, rfl, hf, hv⟩
      · rw [scanSections_cons_fstubs strtab ndx s rest ve evs c1 c2]
        have hnone : ve.fstubs.isSome = false := by
          rcases h : ve.fstubs.isSome with _ | _
          · rfl
          · exact absurd (hf.mp h) c2
        refine ih (ndx + 1) _ _ (by omega) ?_ ?_ ?_ ?_
        · intro r
          rw [acqCount_append, hacq r, acqCount_single_acq]
          cases r <;> simp [heldCount, hnone]
        · intro r
          rw [relCount_append, hrel r, relCount_single_acq]
        · simp only [Option.isSome_some]
          constructor
          · intro _; omega
          · intro _; trivial
        · exact hv
    · rw [Bool.not_eq_true] at c1
      by_cases c3 : isVstubsSection s = true
      · by_cases c4 : ve.vstubsNdx ≠ 0
        · rw [scanSections_cons_vstubs_dup strtab ndx s rest ve evs c1 c3 c4]
          exact ⟨hacq, hrel, rfl, rfl, hf, hv⟩
        · rw [scanSections_cons_vstubs strtab ndx s rest ve evs c1 c3 c4]
          have hnone : ve.vstubs.isSome = false := by
            rcases h : ve.vstubs.isSome with _ | _
            · rfl
            · exact absurd (hv.mp h) c4
          refine ih (ndx + 1) _ _ (by omega) ?_ ?_ ?_ ?_
          · intro r
            rw [acqCount_append, hacq r, acqCount_single_acq]
            cases r <;> simp [heldCount, hnone]
          · intro r
            rw [relCount_append, hrel r, relCount_single_acq]
          · exact hf
          · simp only [Option.isSome_some]
            constructor
            · intro _; omega
            · intro _; trivial
      · rw [Bool.not_eq_true] at c3
        by_cases c5 : isSymtabSection s = true
        · by_cases c6 : ve.symtab.isSome = true
          · rw [scanSections_cons_symtab_dup strtab ndx s rest ve evs c1 c3 c5 c6]
            exact ⟨hacq, hrel, rfl, rfl, hf, hv⟩
          · rw [scanSections_cons_symtab strtab ndx s rest ve evs c1 c3 c5 c6]
            have hnone : ve.symtab.isSome = false := by
              rcases h : ve.symtab.isSome with _ | _
              · rfl
              · exact absurd h c6
            refine ih (ndx + 1) _ _ (by omega) ?_ ?_ ?_ ?_
            · intro r
              rw [acqCount_append, hacq r, acqCount_single_acq]
              cases r <;> simp [heldCount, hnone]
            · intro r
              rw [relCount_append, hrel r, relCount_single_acq]
            · exact hf
            · exact hv
        · rw [Bool.not_eq_true] at c5
          rw [scanSections_cons_skip strtab ndx s rest ve evs c1 c3 c5]
          exact ih (ndx + 1) ve evs (by omega) hacq hrel hf hv

theorem corrPhaseV_counts (ve : VitaElf) (evs : List REvent)
    (hacq : ∀ r, acqCount evs r = heldCount ve r)
    (hrel : ∀ r, relCount evs r = 0) :
    (∀ e, (corrPhaseV ve evs).1 = .error e →
      ∀ r, acqCount (corrPhaseV ve evs).2 r = relCount (corrPhaseV ve evs).2 r)
    ∧ (∀ ve', (corrPhaseV ve evs).1 = .ok ve' →
      (∀ r, relCount (corrPhaseV ve evs).2 r = 0)
      ∧ ve'.symtab = ve.symtab ∧ ve'.fstubsNdx = ve.fstubsNdx
      ∧ ve'.vstubsNdx = ve.vstubsNdx ∧ ve'.fd = ve.fd ∧ ve'.elfOpen = ve.elfOpen) := by
  unfold corrPhaseV
  by_cases h : ve.vstubsNdx ≠ 0
  · rw [if_pos h]
    rcases hl : lookupStubSymbols ve.vstubsNdx STT_OBJECT (ve.symtab.getD [])
        (ve.vstubs.getD []) with e | vs'
    · simp only [hl]
      constructor
      · intro e' _ r
        exact failure_counts ve evs r (hacq r) (hrel r)
      · intro ve' h'
        exact absurd h' (by simp)
    · simp only [hl]
      constructor
      · intro e h'
        exact absurd h' (by simp)
      · intro ve' h'
        simp only [Except.ok.injEq] at h'
        subst h'
        exact ⟨hrel, rfl, rfl, rfl, rfl, rfl⟩
  · rw [if_neg h]
    constructor
    · intro e h'
      exact absurd h' (by simp)
    · intro ve' h'
      simp only [Except.ok.injEq] at h'
      subst h'
      exact ⟨hrel, rfl, rfl, rfl, rfl, rfl⟩

theorem corrPhase_counts (ve : VitaElf) (evs : List REvent)
    (hacq : ∀ r, acqCount evs r = heldCount ve r)
    (hrel : ∀ r, relCount evs r = 0)
    (hf : ve.fstubs.isSome = true ↔ ve.fstubsNdx ≠ 0) :
    (∀ e, (corrPhase ve evs).1 = .error e →
      ∀ r, acqCount (corrPhase ve evs).2 r = relCount (corrPhase ve evs).2 r)
    ∧ (∀ ve', (corrPhase ve evs).1 = .ok ve' →
      (∀ r, relCount (corrPhase ve evs).2 r = 0)
      ∧ ve'.symtab = ve.symtab ∧ ve'.fstubsNdx = ve.fstubsNdx
      ∧ ve'.vstubsNdx = ve.vstubsNdx ∧ ve'.fd = ve.fd ∧ ve'.elfOpen = ve.elfOpen) := by
  unfold corrPhase
  by_cases h : ve.fstubsNdx ≠ 0
  · rw [if_pos h]
    rcases hl : lookupStubSymbols ve.fstubsNdx STT_FUNC (ve.symtab.getD [])
        (ve.fstubs.getD []) with e | fs'
    · simp only [hl]
      constructor
      · intro e' _ r
        exact failure_counts ve evs r (hacq r) (hrel r)
      · intro ve' h'
        exact absurd h' (by simp)
    · simp only [hl]
      have hsome : ve.fstubs.isSome = true := hf.mpr h
      have hacq' : ∀ r, acqCount evs r = heldCount { ve with fstubs := some fs' } r := by
        intro r
        rw [hacq r]
        cases r <;> simp [heldCount, hsome]
      exact corrPhaseV_counts { ve with fstubs := some fs' } evs hacq' hrel
  · rw [if_neg h]
    exact corrPhaseV_counts ve evs hacq hrel

theorem load_tail_counts (strtab : Nat → String) (secs : List ElfSection)
    (ve2 : VitaElf) (evs2 : List REvent)
    (hacq : ∀ r, acqCount evs2 r = heldCount ve2 r)
    (hrel : ∀ r, relCount evs2 r = 0)
    (hf : ve2.fstubs.isSome = true ↔ ve2.fstubsNdx ≠ 0)
    (hv : ve2.vstubs.isSome = true ↔ ve2.vstubsNdx ≠ 0)
    (hfd : ve2.fd ≥ 0) (heo : ve2.elfOpen = true) :
    (∀ e, (loadTail strtab secs ve2 evs2).1 = .error e →
      ∀ r, acqCount (loadTail strtab secs ve2 evs2).2 r
        = relCount (loadTail strtab secs ve2 evs2).2 r)
    ∧ (∀ ve, (loadTail strtab secs ve2 evs2).1 = .ok ve →
      (∀ r, relCount (loadTail strtab secs ve2 evs2).2 r = 0)
      ∧ ve.symtab.isSome = true
      ∧ (ve.fstubsNdx ≠ 0 ∨ ve.vstubsNdx ≠ 0)
      ∧ ve.fd ≥ 0 ∧ ve.elfOpen = true) := by
  obtain ⟨hacq', hrel', hfd', heo', hf', hv'⟩ :=
    scanSections_inv strtab secs 1 ve2 evs2 (by omega) hacq hrel hf hv
  rcases hsc : scanSections strtab 1 secs ve2 evs2 with ⟨err, ve', evs'⟩
  rw [hsc] at hacq' hrel' hfd' heo' hf' hv'
  simp only [loadTail, hsc]
  cases err with
  | some e =>
    simp only [loadPost]
    constructor
    · intro e' _ r
      exact failure_counts ve' evs' r (hacq' r) (hrel' r)
    · intro ve h'
      exact absurd h' (by simp)
  | none =>
    simp only [loadPost]
    by_cases hstub : ve'.fstubsNdx = 0 ∧ ve'.vstubsNdx = 0
    · rw [if_pos hstub]
      constructor
      · intro e' _ r
        exact failure_counts ve' evs' r (hacq' r) (hrel' r)
      · intro ve h'
        exact absurd h' (by simp)
    · rw [if_neg hstub]
      by_cases hsymt : ve'.symtab.isNone = true
      · rw [if_pos hsymt]
        constructor
        · intro e' _ r
          exact failure_counts ve' evs' r (hacq' r) (hrel' r)
        · intro ve h'
          exact absurd h' (by simp)
      · rw [if_neg hsymt]
        have hc := corrPhase_counts ve' evs' hacq' hrel' hf'
        constructor
        · exact hc.1
        · intro ve h'
          obtain ⟨hrel0, hsymtEq, hfNdx, hvNdx, hfdEq, heoEq⟩ := hc.2 ve h'
          have hsome : ve'.symtab.isSome = true := by
            rcases hx : ve'.symtab with _ | x
            · rw [hx] at hsymt
              exact absurd rfl hsymt
            · rfl
          refine ⟨hrel0, ?_, ?_, ?_, ?_⟩
          · rw [hsymtEq]
            exact hsome
          · rw [hfNdx, hvNdx]
            omega
          · rw [hfdEq, hfd']
            exact hfd
          · rw [heoEq, heo']
            exact heo

/-- C4: load is atomic.  Either the load returns a fully-formed session
(open fd, open ELF handle, a symbol table, at least one stub section, and no
release events in the ledger), or it fails and then every resource acquired
along the way — struct, file descriptor, ELF handle, stub arrays, symbol
array — has been released: per resource, acquisitions equal releases. -/
theorem vita_elf_load_atomic (input : ElfInput) :
    (∀ e, (vitaElfLoad input).1 = .error e →
      ∀ r, acqCount (vitaElfLoad input).2 r = relCount (vitaElfLoad input).2 r)
    ∧ (∀ ve, (vitaElfLoad input).1 = .ok ve →
      (∀ r, relCount (vitaElfLoad input).2 r = 0)
      ∧ ve.symtab.isSome = true
      ∧ (ve.fstubsNdx ≠ 0 ∨ ve.vstubsNdx ≠ 0)
      ∧ ve.fd ≥ 0 ∧ ve.elfOpen = true) := by
  simp only [vitaElfLoad]
  by_cases h1 : input.elfVersionOk = true
  · rw [if_pos h1]
    by_cases h2 : input.openOk = true
    · rw [if_pos h2]
      by_cases h3 : input.elfBeginOk = true
      · rw [if_pos h3]
        by_cases h4 : input.kindIsElf = true
        · rw [if_pos h4]
          by_cases h5 : input.ehdrOk = true
          · rw [if_pos h5]
            by_cases h6 : input.eMachine = EM_ARM
            · rw [if_pos h6]
              by_cases h7 : input.eiClass = ELFCLASS32 ∧ input.eiData = ELFDATA2LSB
              · rw [if_pos h7]
                by_cases h8 : input.shstrndxOk = true
                · rw [if_pos h8]
                  exact load_tail_counts _ _ _ _
                    (fun r => by cases r <;> decide)
                    (fun r => by cases r <;> decide)
                    (by simp) (by simp) (by decide) (by decide)
                · rw [if_neg h8]
                  exact ⟨fun e _ r => failure_counts _ _ r (by cases r <;> decide)
                      (by cases r <;> decide),
                    fun ve h => absurd h (by simp)⟩
              · rw [if_neg h7]
                exact ⟨fun e _ r => failure_counts _ _ r (by cases r <;> decide)
                    (by cases r <;> decide),
                  fun ve h => absurd h (by simp)⟩
            · rw [if_neg h6]
              exact ⟨fun e _ r => failure_counts _ _ r (by cases r <;> decide)
                  (by cases r <;> decide),
                fun ve h => absurd h (by simp)⟩
          · rw [if_neg h5]
            exact ⟨fun e _ r => failure_counts _ _ r (by cases r <;> decide)
                (by cases r <;> decide),
              fun ve h => absurd h (by simp)⟩
        · rw [if_neg h4]
          exact ⟨fun e _ r => failure_counts _ _ r (by cases r <;> decide)
              (by cases r <;> decide),
            fun ve h => absurd h (by simp)⟩
      · rw [if_neg h3]
        exact ⟨fun e _ r => failure_counts _ _ r (by cases r <;> decide)
            (by cases r <;> decide),
          fun ve h => absurd h (by simp)⟩
    · rw [if_neg h2]
      exact ⟨fun e _ r => failure_counts _ _ r (by cases r <;> decide)
          (by cases r <;> decide),
        fun ve h => absurd h (by simp)⟩
  · rw [if_neg h1]
    exact ⟨fun e _ r => rfl, fun ve h => absurd h (by simp)⟩

theorem vita_elf_load_atomic_witness :
    acqCount (vitaElfLoad
      { elfVersionOk := true, openOk := false, elfBeginOk := true, kindIsElf := true,
        ehdrOk := true, eMachine := 40, eiClass := 1, eiData := 1, shstrndxOk := true,
        sections := [], symStrtab := fun _ => "" }).2 Res.veStruct
    = relCount (vitaElfLoad
      { elfVersionOk := true, openOk := false, elfBeginOk := true, kindIsElf := true,
        ehdrOk := true, eMachine := 40, eiClass := 1, eiData := 1, shstrndxOk := true,
        sections := [], symStrtab := fun _ => "" }).2 Res.veStruct :=
  (vita_elf_load_atomic
    { elfVersionOk := true, openOk := false, elfBeginOk := true, kindIsElf := true,
      ehdrOk := true, eMachine := 40, eiClass := 1, eiData := 1, shstrndxOk := true,
      sections := [], symStrtab := fun _ => "" }).1 .openFailed rfl .veStruct

theorem fstubs_not_vstubs (s : ElfSection) (h : isFstubsSection s = true) :
    isVstubsSection s = false := by
  simp only [isFstubsSection, Bool.and_eq_true, beq_iff_eq] at h
  simp only [isVstubsSection, h.2]
  have hne : ((".vitalink.fstubs" : String) == ".vitalink.vstubs") = false := by decide
  simp [hne]

theorem fstubs_not_symtab (s : ElfSection) (h : isFstubsSection s = true) :
    isSymtabSection s = false := by
  simp only [isFstubsSection, Bool.and_eq_true, beq_iff_eq] at h
  simp only [isSymtabSection, h.1]
  decide

theorem vstubs_not_fstubs (s : ElfSection) (h : isVstubsSection s = true) :
    isFstubsSection s = false := by
  simp only [isVstubsSection, Bool.and_eq_true, beq_iff_eq] at h
  simp only [isFstubsSection, h.2]
  have hne : ((".vitalink.vstubs" : String) == ".vitalink.fstubs") = false := by decide
  simp [hne]

theorem vstubs_not_symtab (s : ElfSection) (h : isVstubsSection s = true) :
    isSymtabSection s = false := by
  simp only [isVstubsSection, Bool.and_eq_true, beq_iff_eq] at h
  simp only [isSymtabSection, h.1]
  decide

theorem symtab_not_fstubs (s : ElfSection) (h : isSymtabSection s = true) :
    isFstubsSection s = false := by
  simp only [isSymtabSection, beq_iff_eq] at h
  simp only [isFstubsSection, h]
  have hne : (SHT_SYMTAB == SHT_PROGBITS) = false := by decide
  simp [hne]

theorem symtab_not_vstubs (s : ElfSection) (h : isSymtabSection s = true) :
    isVstubsSection s = false := by
  simp only [isSymtabSection, beq_iff_eq] at h
  simp only [isVstubsSection, h]
  have hne : (SHT_SYMTAB == SHT_PROGBITS) = false := by decide
  simp [hne]

theorem scanSections_ok_counts (strtab : Nat → String) :
    ∀ (secs : List ElfSection) (ndx : Nat) (ve : VitaElf) (evs : List REvent),
    1 ≤ ndx →
    (scanSections strtab ndx secs ve evs).1 = none →
    ((ve.fstubsNdx ≠ 0 → secs.countP isFstubsSection = 0)
      ∧ secs.countP isFstubsSection ≤ 1)
    ∧ ((ve.vstubsNdx ≠ 0 → secs.countP isVstubsSection = 0)
      ∧ secs.countP isVstubsSection ≤ 1)
    ∧ ((ve.symtab.isSome = true → secs.countP isSymtabSection = 0)
      ∧ secs.countP isSymtabSection ≤ 1) := by
  intro secs
  induction secs with
  | nil =>
    intro ndx ve evs hnd h
    simp
  | cons s rest ih =>
    intro ndx ve evs hnd h
    by_cases c1 : isFstubsSection s = true
    · by_cases c2 : ve.fstubsNdx ≠ 0
      · rw [scanSections_cons_fstubs_dup strtab ndx s rest ve evs c1 c2] at h
        simp at h
      · rw [scanSections_cons_fstubs strtab ndx s rest ve evs c1 c2] at h
        obtain ⟨⟨ihf1, ihf2⟩, ⟨ihv1, ihv2⟩, ⟨ihs1, ihs2⟩⟩ := ih (ndx + 1) _ _ (by omega) h
        have hf0 : rest.countP isFstubsSection = 0 := ihf1 (by show ndx ≠ 0; omega)
        simp only [List.countP_cons, c1, fstubs_not_vstubs s c1, fstubs_not_symtab s c1]
        refine ⟨⟨fun hc => absurd hc c2, by simp [hf0]⟩,
          ⟨fun hv => by simpa using ihv1 hv, by simpa using ihv2⟩,
          ⟨fun hs => by simpa using ihs1 hs, by simpa using ihs2⟩⟩
    · rw [Bool.not_eq_true] at c1
      by_cases c3 : isVstubsSection s = true
      · by_cases c4 : ve.vstubsNdx ≠ 0
        · rw [scanSections_cons_vstubs_dup strtab ndx s rest ve evs c1 c3 c4] at h
          simp at h
        · rw [scanSections_cons_vstubs strtab ndx s rest ve evs c1 c3 c4] at h
          obtain ⟨⟨ihf1, ihf2⟩, ⟨ihv1, ihv2⟩, ⟨ihs1, ihs2⟩⟩ := ih (ndx + 1) _ _ (by omega) h
          have hv0 : rest.countP isVstubsSection = 0 := ihv1 (by show ndx ≠ 0; omega)
          simp only [List.countP_cons, c1, c3, vstubs_not_symtab s c3]
          refine ⟨⟨fun hf => by simpa using ihf1 hf, by simpa using ihf2⟩,
            ⟨fun hc => absurd hc c4, by simp [hv0]⟩,
            ⟨fun hs => by simpa using ihs1 hs, by simpa using ihs2⟩⟩
      · rw [Bool.not_eq_true] at c3
        by_cases c5 : isSymtabSection s = true
        · by_cases c6 : ve.symtab.isSome = true
          · rw [scanSections_cons_symtab_dup strtab ndx s rest ve evs c1 c3 c5 c6] at h
            simp at h
          · rw [scanSections_cons_symtab strtab ndx s rest ve evs c1 c3 c5 c6] at h
            obtain ⟨⟨ihf1, ihf2⟩, ⟨ihv1, ihv2⟩, ⟨ihs1, ihs2⟩⟩ :=
              ih (ndx + 1) _ _ (by omega) h
            have hs0 : rest.countP isSymtabSection = 0 :=
              ihs1 (by show (some _).isSome = true; rfl)
            simp only [List.countP_cons, c1, c3, c5]
            refine ⟨⟨fun hf => by simpa using ihf1 hf, by simpa using ihf2⟩,
              ⟨fun hv => by simpa using ihv1 hv, by simpa using ihv2⟩,
              ⟨fun hc => absurd hc c6, by simp [hs0]⟩⟩
        · rw [Bool.not_eq_true] at c5
          rw [scanSections_cons_skip strtab ndx s rest ve evs c1 c3 c5] at h
          obtain ⟨⟨ihf1, ihf2⟩, ⟨ihv1, ihv2⟩, ⟨ihs1, ihs2⟩⟩ :=
            ih (ndx + 1) ve evs (by omega) h
          simp only [List.countP_cons, c1, c3, c5]
          refine ⟨⟨fun hf => by simpa using ihf1 hf, by simpa using ihf2⟩,
            ⟨fun hv => by simpa using ihv1 hv, by simpa using ihv2⟩,
            ⟨fun hs => by simpa using ihs1 hs, by simpa using ihs2⟩⟩

theorem scanSections_absent (strtab : Nat → String) :
    ∀ (secs : List ElfSection) (ndx : Nat) (ve : VitaElf) (evs : List REvent),
    (scanSections strtab ndx secs ve evs).1 = none →
    (secs.countP isFstubsSection = 0 →
      (scanSections strtab ndx secs ve evs).2.1.fstubsNdx = ve.fstubsNdx)
    ∧ (secs.countP isVstubsSection = 0 →
      (scanSections strtab ndx secs ve evs).2.1.vstubsNdx = ve.vstubsNdx)
    ∧ (secs.countP isSymtabSection = 0 →
      (scanSections strtab ndx secs ve evs).2.1.symtab = ve.symtab) := by
  intro secs
  induction secs with
  | nil =>
    intro ndx ve evs h
    exact ⟨fun _ => rfl, fun _ => rfl, fun _ => rfl⟩
  | cons s rest ih =>
    intro ndx ve evs h
    by_cases c1 : isFstubsSection s = true
    · by_cases c2 : ve.fstubsNdx ≠ 0
      · rw [scanSections_cons_fstubs_dup strtab ndx s rest ve evs c1 c2] at h
        simp at h
      · rw [scanSections_cons_fstubs strtab ndx s rest ve evs c1 c2] at h ⊢
        obtain ⟨ihf, ihv, ihs⟩ := ih (ndx + 1) _ _ h
        simp only [List.countP_cons, c1, fstubs_not_vstubs s c1, fstubs_not_symtab s c1]
        refine ⟨fun hf => by simp at hf, fun hv => ?_, fun hs => ?_⟩
        · rw [ihv (by simpa using hv)]
        · rw [ihs (by simpa using hs)]
    · rw [Bool.not_eq_true] at c1
      by_cases c3 : isVstubsSection s = true
      · by_cases c4 : ve.vstubsNdx ≠ 0
        · rw [scanSections_cons_vstubs_dup strtab ndx s rest ve evs c1 c3 c4] at h
          simp at h
        · rw [scanSections_cons_vstubs strtab ndx s rest ve evs c1 c3 c4] at h ⊢
          obtain ⟨ihf, ihv, ihs⟩ := ih (ndx + 1) _ _ h
          simp only [List.countP_cons, c1, c3, vstubs_not_symtab s c3]
          refine ⟨fun hf => ?_, fun hv => by simp at hv, fun hs => ?_⟩
          · rw [ihf (by simpa using hf)]
          · rw [ihs (by simpa using hs)]
      · rw [Bool.not_eq_true] at c3
        by_cases c5 : isSymtabSection s = true
        · by_cases c6 : ve.symtab.isSome = true
          · rw [scanSections_cons_symtab_dup strtab ndx s rest ve evs c1 c3 c5 c6] at h
            simp at h
          · rw [scanSections_cons_symtab strtab ndx s rest ve evs c1 c3 c5 c6] at h ⊢
            obtain ⟨ihf, ihv, ihs⟩ := ih (ndx + 1) _ _ h
            simp only [List.countP_cons, c1, c3, c5]
            refine ⟨fun hf => ?_, fun hv => ?_, fun hs => by simp at hs⟩
            · rw [ihf (by simpa using hf)]
            · rw [ihv (by simpa using hv)]
        · rw [Bool.not_eq_true] at c5
          rw [scanSections_cons_skip strtab ndx s rest ve evs c1 c3 c5] at h ⊢
          obtain ⟨ihf, ihv, ihs⟩ := ih (ndx + 1) ve evs h
          simp only [List.countP_cons, c1, c3, c5]
          refine ⟨fun hf => ?_, fun hv => ?_, fun hs => ?_⟩
          · rw [ihf (by simpa using hf)]
          · rw [ihv (by simpa using hv)]
          · rw [ihs (by simpa using hs)]

theorem loadTail_ok_scan (strtab : Nat → String) (secs : List ElfSection)
    (ve2 : VitaElf) (evs2 : List REvent) (ve : VitaElf)
    (h : (loadTail strtab secs ve2 evs2).1 = .ok ve) :
    (scanSections strtab 1 secs ve2 evs2).1 = none
    ∧ ¬((scanSections strtab 1 secs ve2 evs2).2.1.fstubsNdx = 0
        ∧ (scanSections strtab 1 secs ve2 evs2).2.1.vstubsNdx = 0)
    ∧ (scanSections strtab 1 secs ve2 evs2).2.1.symtab.isNone = false := by
  rcases hsc : scanSections strtab 1 secs ve2 evs2 with ⟨err, ve', evs'⟩
  simp only [loadTail, hsc] at h
  cases err with
  | some e => simp [loadPost] at h
  | none =>
    simp only [loadPost] at h
    by_cases hstub : ve'.fstubsNdx = 0 ∧ ve'.vstubsNdx = 0
    · rw [if_pos hstub] at h
      simp at h
    · rw [if_neg hstub] at h
      by_cases hsymt : ve'.symtab.isNone = true
      · rw [if_pos hsymt] at h
        simp at h
      · rw [if_neg hsymt] at h
        rw [Bool.not_eq_true] at hsymt
        exact ⟨rfl, hstub, hsymt⟩

theorem vitaElfLoad_ok_tail (input : ElfInput) (ve : VitaElf)
    (h : (vitaElfLoad input).1 = .ok ve) :
    ∃ ve2 evs2, ve2.fstubsNdx = 0 ∧ ve2.vstubsNdx = 0 ∧ ve2.symtab = none
      ∧ (loadTail input.symStrtab input.sections ve2 evs2).1 = .ok ve := by
  simp only [vitaElfLoad] at h
  split_ifs at h <;>
    first
      | (refine ⟨_, _, ?_, ?_, ?_, h⟩ <;> rfl)
      | simp at h

/-- C7: `vita_elf_load` never yields a session when the binary has two
`.vitalink.fstubs` sections, two `.vitalink.vstubs` sections, or more than
one symbol table; nor when, after the full scan, no stub section of either
kind was found or no symbol table was found. -/
theorem vita_elf_load_section_invariants (input : ElfInput) :
    (2 ≤ input.sections.countP isFstubsSection → ∀ ve, (vitaElfLoad input).1 ≠ .ok ve)
    ∧ (2 ≤ input.sections.countP isVstubsSection → ∀ ve, (vitaElfLoad input).1 ≠ .ok ve)
    ∧ (2 ≤ input.sections.countP isSymtabSection → ∀ ve, (vitaElfLoad input).1 ≠ .ok ve)
    ∧ (input.sections.countP isFstubsSection = 0 ∧ input.sections.countP isVstubsSection = 0 →
        ∀ ve, (vitaElfLoad input).1 ≠ .ok ve)
    ∧ (input.sections.countP isSymtabSection = 0 → ∀ ve, (vitaElfLoad input).1 ≠ .ok ve) := by
  have key : ∀ ve, (vitaElfLoad input).1 = .ok ve →
      input.sections.countP isFstubsSection ≤ 1
      ∧ input.sections.countP isVstubsSection ≤ 1
      ∧ input.sections.countP isSymtabSection ≤ 1
      ∧ ¬(input.sections.countP isFstubsSection = 0
          ∧ input.sections.countP isVstubsSection = 0)
      ∧ input.sections.countP isSymtabSection ≠ 0 := by
    intro ve hok
    obtain ⟨ve2, evs2, hf0, hv0, hs0, htail⟩ := vitaElfLoad_ok_tail input ve hok
    obtain ⟨hscn, hstub, hsymt⟩ := loadTail_ok_scan _ _ _ _ _ htail
    obtain ⟨⟨_, hcf⟩, ⟨_, hcv⟩, ⟨_, hcs⟩⟩ :=
      scanSections_ok_counts input.symStrtab input.sections 1 ve2 evs2 (by omega) hscn
    obtain ⟨habsf, habsv, habss⟩ :=
      scanSections_absent input.symStrtab input.sections 1 ve2 evs2 hscn
    refine ⟨hcf, hcv, hcs, ?_, ?_⟩
    · rintro ⟨hzf, hzv⟩
      exact hstub ⟨by rw [habsf hzf, hf0], by rw [habsv hzv, hv0]⟩
    · intro hzs
      have heq := habss hzs
      rw [heq, hs0] at hsymt
      simp at hsymt
  refine ⟨?_, ?_, ?_, ?_, ?_⟩
  · intro hc ve hok
    have hk := key ve hok
    omega
  · intro hc ve hok
    have hk := key ve hok
    omega
  · intro hc ve hok
    have hk := key ve hok
    omega
  · intro hc ve hok
    exact (key ve hok).2.2.2.1 hc
  · intro hc ve hok
    exact (key ve hok).2.2.2.2 hc

theorem vita_elf_load_section_invariants_witness :
    ∀ ve, (vitaElfLoad
      { elfVersionOk := true, openOk := true, elfBeginOk := true, kindIsElf := true,
        ehdrOk := true, eMachine := 40, eiClass := 1, eiData := 1, shstrndxOk := true,
        sections :=
          [{ shType := 1, sname := ".vitalink.fstubs", shAddr := 0, shSize := 0,
             shEntsize := 0, shInfo := 0, chunks := [] },
           { shType := 1, sname := ".vitalink.fstubs", shAddr := 0, shSize := 0,
             shEntsize := 0, shInfo := 0, chunks := [] }],
        symStrtab := fun _ => "" }).1 ≠ .ok ve :=
  (vita_elf_load_section_invariants _).1 (by decide)
